import Mathlib

/-!
Verification of the nested type concretization subsystem
(lib/AST/RequirementMachine/ConcreteTypeWitness.cpp).

The development shallowly embeds the four functions of that file:

- concretizeNestedTypesFromConcreteParent (the per parent concretizer),
- concretizeTypeWitnessInConformance (per member type rule emission),
- computeConstraintTermForTypeWitness (the rule shape decision),
- recordConcreteConformanceRule (rule merging),
- inferConditionalRequirements (conditional requirement translation).

External collaborators (conformance lookup, schema extraction, substitution
simplification, requirement desugaring, the protocol rule builder) are kept
abstract as fields of an environment record, reflecting their role as
narrow contracts outside this file.
-/

namespace ConcreteTypeWitness

/-- Shallow model of the AST CanType collaborator.  A type is either a type
parameter rooted at an index into a substitution array followed by member
type projections, a nominal concrete type whose flag records whether type
parameters occur structurally inside it, or an error type wrapping the type
it was created from. -/
inductive Ty where
  | param (n : Nat) (path : List (String × String))
  | named (head : String) (argsHaveParams : Bool)
  | error (of : Ty)
deriving DecidableEq, Inhabited

/-- Mirrors isTypeParameter on CanType. -/
def Ty.isTypeParameter : Ty → Bool
  | .param _ _ => true
  | _ => false

/-- Mirrors hasTypeParameter on CanType: whether a type parameter occurs
structurally anywhere inside the type. -/
def Ty.hasTypeParameter : Ty → Bool
  | .param _ _ => true
  | .named _ b => b
  | .error t => t.hasTypeParameter

/-- Atomic symbols that occur in type parameter terms: a generic parameter
root, a protocol symbol, or an associated type projection. -/
inductive Atom where
  | genericParam (n : Nat)
  | protoSym (p : String)
  | assocType (proto name : String)
deriving DecidableEq, Inhabited

/-- A substitution term: a path of atomic symbols.  Substitution terms of
concrete type symbols are always type parameter terms in the engine. -/
abbrev ATerm := List Atom

/-- One step of a rewrite term.  Concrete type, superclass and concrete
conformance symbols carry a schema together with ordered substitution
terms filling its parameter slots. -/
inductive Symbol where
  | atom (a : Atom)
  | concreteType (schema : Ty) (substitutions : List ATerm)
  | superclassBound (schema : Ty) (substitutions : List ATerm)
  | concreteConformance (schema : Ty) (substitutions : List ATerm) (proto : String)
deriving DecidableEq, Inhabited

/-- A term is an ordered sequence of symbols. -/
abbrev Term := List Symbol

/-- The schema type carried by a property symbol. -/
def Symbol.getConcreteType? : Symbol → Option Ty
  | .concreteType s _ => some s
  | .superclassBound s _ => some s
  | .concreteConformance s _ _ => some s
  | _ => none

/-- The substitution terms carried by a property symbol. -/
def Symbol.getSubstitutions : Symbol → List ATerm
  | .concreteType _ su => su
  | .superclassBound _ su => su
  | .concreteConformance _ su _ => su
  | _ => []

/-- The protocol named by a symbol, when there is one. -/
def Symbol.getProtocol? : Symbol → Option String
  | .concreteConformance _ _ p => some p
  | .atom (.protoSym p) => some p
  | .atom (.assocType p _) => some p
  | _ => none

/-- Whether the symbol is a property symbol (a protocol, concrete type,
superclass or concrete conformance annotation). -/
def Symbol.isProperty : Symbol → Bool
  | .atom (.protoSym _) => true
  | .concreteType _ _ => true
  | .superclassBound _ _ => true
  | .concreteConformance _ _ _ => true
  | _ => false

/-- Modelled from the spec: the Symbol helper that re-prefixes every
substitution term of a property symbol by a leading path segment (the
source helper lives outside this file); the substitution terms are
re-prefixed by the extra leading path segment. -/
def Symbol.prependPrefixToConcreteSubstitutions (s : Symbol) (pfx : ATerm) : Symbol :=
  match s with
  | .concreteType sc su => .concreteType sc (su.map (fun t => pfx ++ t))
  | .superclassBound sc su => .superclassBound sc (su.map (fun t => pfx ++ t))
  | .concreteConformance sc su p => .concreteConformance sc (su.map (fun t => pfx ++ t)) p
  | s => s

/-- The protocol a term is rooted in, when its first symbol is a protocol
symbol. -/
def Term.getRootProtocol : Term → Option String
  | .atom (.protoSym p) :: _ => some p
  | _ => none

/-- Forgetful projection of a term to its atomic symbols. -/
def Term.toAtoms (t : Term) : ATerm :=
  t.filterMap (fun s => match s with | .atom a => some a | _ => none)

/-- Injection of a type parameter path into a full term. -/
def liftATerm (t : ATerm) : Term := t.map Symbol.atom

/-- One elementary derivation step of a rewrite path. -/
inductive RewriteStep where
  | applyRule (startOffset endOffset ruleID : Nat) (inverse : Bool)
  | relation (startOffset relationID : Nat) (inverse : Bool)
  | prefixSubstitutions (length endOffset : Nat) (inverse : Bool)
deriving DecidableEq, Inhabited

/-- A derivation recording why a newly added rule is entailed. -/
abbrev RewritePath := List RewriteStep

/-- Flips the direction flag of a single step. -/
def RewriteStep.invert : RewriteStep → RewriteStep
  | .applyRule s e r i => .applyRule s e r (!i)
  | .relation s r i => .relation s r (!i)
  | .prefixSubstitutions l e i => .prefixSubstitutions l e (!i)

/-- Modelled from the spec: path inversion (the source helper lives outside
this file) reverses the step list and flips each step. -/
def RewritePath.invert (p : RewritePath) : RewritePath :=
  (p.map RewriteStep.invert).reverse

/-- An entry of the memoized relation registry. -/
inductive Relation where
  | termRel (lhs rhs : Term)
  | concreteTypeWitnessRel (cc assoc witness : Symbol)
  | sameTypeWitnessRel (cc assoc : Symbol)
  | concreteConformanceRel (concreteSym protoSym ccSym : Symbol)
deriving DecidableEq, Inhabited

/-- An oriented rewrite rule with its conflict flag. -/
structure Rule where
  lhs : Term
  rhs : Term
  conflicting : Bool := false
deriving DecidableEq, Inhabited

/-- If the rule is of the shape T.[p] to T for a property symbol [p],
return that symbol. -/
def Rule.isPropertyRule (r : Rule) : Option Symbol :=
  match r.lhs.getLast? with
  | some s => if s.isProperty ∧ r.lhs = r.rhs ++ [s] then some s else none
  | none => none

/-- The flavor of a rule addition call on the shared store. -/
inductive AddKind where
  | induced
  | permanent
  | explicitRule
deriving DecidableEq, Inhabited

/-- A logged call to the rule addition interface of the shared store. -/
structure AddCall where
  lhs : Term
  rhs : Term
  path : Option RewritePath
  kind : AddKind
deriving DecidableEq, Inhabited

/-- The rewrite system state visible to this subsystem: the rule list, the
memoized relation registry, the set of protocols already registered, the
log of rule addition calls, and the flag of the empty derivation
assertion. -/
structure RSys where
  rules : List Rule
  relations : List Relation := []
  knownProtocols : List String := []
  addCalls : List AddCall := []
  emptyPathAssertFailed : Bool := false

/-- Fetch a rule by identifier. -/
def RSys.getRule (sys : RSys) (i : Nat) : Rule := sys.rules.getD i default

/-- Mark the rule with the given identifier conflicting. -/
def RSys.markConflicting (sys : RSys) (i : Nat) : RSys :=
  { sys with rules := sys.rules.set i { sys.rules.getD i default with conflicting := true } }

/-- Index of a relation in the registry, when already present. -/
def findRelationIdx (r : Relation) : List Relation → Option Nat
  | [] => none
  | x :: xs => if x = r then some 0 else (findRelationIdx r xs).map (· + 1)

/-- Memoized relation recording: reuse the identifier of an already recorded
relation, else append a fresh one. -/
def RSys.recordRelation (sys : RSys) (r : Relation) : Nat × RSys :=
  match findRelationIdx r sys.relations with
  | some i => (i, sys)
  | none => (sys.relations.length, { sys with relations := sys.relations ++ [r] })

/-- The public addRule contract of the shared store: the call is logged with
its optional derivation path and the rule is appended. -/
def RSys.addRule (sys : RSys) (lhs rhs : Term) (path : Option RewritePath) : RSys :=
  { sys with
      rules := sys.rules ++ [{ lhs := lhs, rhs := rhs }],
      addCalls := sys.addCalls ++ [{ lhs := lhs, rhs := rhs, path := path, kind := .induced }] }

/-- Adds a permanent rule (used when importing an unseen protocol). -/
def RSys.addPermanentRule (sys : RSys) (lhs rhs : Term) : RSys :=
  { sys with
      rules := sys.rules ++ [{ lhs := lhs, rhs := rhs }],
      addCalls := sys.addCalls ++ [{ lhs := lhs, rhs := rhs, path := none, kind := .permanent }] }

/-- Adds an explicit requirement rule (used when importing an unseen
protocol). -/
def RSys.addExplicitRule (sys : RSys) (lhs rhs : Term) : RSys :=
  { sys with
      rules := sys.rules ++ [{ lhs := lhs, rhs := rhs }],
      addCalls := sys.addCalls ++ [{ lhs := lhs, rhs := rhs, path := none, kind := .explicitRule }] }

/-- The kind of a canonical requirement. -/
inductive CReqKind where
  | conformance
  | sameTypeKind
  | superclassKind
  | layout
deriving DecidableEq, Inhabited

/-- A canonical requirement as produced by desugaring; only the kind and
the protocol name are inspected by this subsystem, the rest is opaque. -/
structure CondReq where
  kind : CReqKind
  proto : String := ""
  tag : Nat := 0
deriving DecidableEq, Inhabited

/-- An implementation handle for a protocol conformance of a concrete type:
whether it is abstract, the member type witnesses, and the conditional
requirements. -/
structure Conformance where
  isAbstract : Bool := false
  typeWitness : String → Option Ty
  conditionalRequirements : List CondReq := []

instance : Inhabited Conformance := ⟨{ typeWitness := fun _ => none }⟩

/-- The slice of a property bag inspected by the prefix scan: its key and
its optional concrete type property. -/
structure PropertyBag where
  key : Term
  concreteTypeProp : Option (Ty × List ATerm) := none
deriving DecidableEq, Inhabited

/-- The requirement kind dimension dispatched by the driver. -/
inductive ReqKind where
  | sameType
  | superclass
deriving DecidableEq, Inhabited

/-- The external collaborators consumed by the subsystem, as narrow
contracts. -/
structure Env where
  lookUpProperties : Term → Option PropertyBag
  lookupConformance : Ty → String → Option Conformance
  associatedTypeMembers : String → List String
  getRelativeSubstitutionSchemaFromType : Ty → List ATerm → Ty × List ATerm
  simplifySubstitutions : Term → Symbol → Option Symbol × RewritePath
  desugarRequirement : CondReq → List CondReq
  getRuleForRequirement : CondReq → List ATerm → Term × Term
  protocolRules : String → List (Term × Term) × List (Term × Term)

/-- Modelled from the spec: the RewriteContext helper that maps an abstract
type witness, a type parameter rooted at index n followed by member type
projections, to the nth substitution term followed by those projections
(the source helper lives outside this file). -/
def getRelativeTermForType (w : Ty) (substitutions : List ATerm) : Term :=
  match w with
  | .param n path =>
      liftATerm (substitutions.getD n []) ++
        path.map (fun pr => Symbol.atom (.assocType pr.1 pr.2))
  | _ => []

/-- The per parent state: the rewrite system, the per key concrete
conformance cache, the resolved conformances output list, and the flags of
the two fatal assertions of the per parent concretizer. -/
structure St where
  sys : RSys
  concreteConformances : List ((Nat × Nat) × Conformance) := []
  conformances : List Conformance := []
  insertionAssertFailed : Bool := false
  abstractAssertFailed : Bool := false

/-- Lookup of a rule identifier pair in the per key cache. -/
def lookupConcreteConformance (cache : List ((Nat × Nat) × Conformance))
    (pr : Nat × Nat) : Option Conformance :=
  match cache.find? (fun e => e.1 == pr) with
  | some e => some e.2
  | none => none

/-- The prefix scan of the type witness rule synthesizer: walk the prefixes
of the key from length n down to length one and return the first property
bag whose own concrete type property equals the witness. -/
def findReusablePrefixBag (env : Env) (key : Term) (w : Ty) : Nat → Option PropertyBag
  | 0 => none
  | n + 1 =>
      match env.lookUpProperties (key.take (n + 1)) with
      | some props =>
          match props.concreteTypeProp with
          | some (ct, _) =>
              if ct = w then some props else findReusablePrefixBag env key w n
          | none => findReusablePrefixBag env key w n
      | none => findReusablePrefixBag env key w n

/-- The symbol obtained by simplifying the substitution terms of a
property symbol against the current rules, through the external
simplifySubstitutions collaborator and its type difference. -/
def simplifySymbol (env : Env) (key : Term) (s : Symbol) : Symbol :=
  match (env.simplifySubstitutions key s).1 with
  | some s2 => s2
  | none => s

/-- The derivation path of the substitution simplification, inverted when
a difference was found (the difference rewrites the original symbol to the
simplified one). -/
def simplifySymbolPath (env : Env) (key : Term) (s : Symbol) : RewritePath :=
  match (env.simplifySubstitutions key s).1 with
  | some _ => RewritePath.invert (env.simplifySubstitutions key s).2
  | none => (env.simplifySubstitutions key s).2

/-- Embedding of computeConstraintTermForTypeWitness: decide the rule shape
for one member type witness and build its derivation path. -/
def computeConstraintTermForTypeWitness (env : Env) (key : Term)
    (requirementKind : ReqKind) (concreteType typeWitness : Ty)
    (subjectType : Term) (substitutions : List ATerm)
    (path : RewritePath) (sys : RSys) : Term × RewritePath × RSys :=
  if typeWitness.isTypeParameter then
    let result := getRelativeTermForType typeWitness substitutions
    let rel := sys.recordRelation (.termRel result subjectType)
    (result, path ++ [.relation 0 rel.1 false], rel.2)
  else
    let schemaPair := env.getRelativeSubstitutionSchemaFromType typeWitness substitutions
    let typeWitnessSymbol := Symbol.concreteType schemaPair.1 schemaPair.2
    let tieOff :=
      if !typeWitness.hasTypeParameter then
        findReusablePrefixBag env key typeWitness key.length
      else none
    match tieOff with
    | some props =>
        let result := props.key ++ [typeWitnessSymbol]
        let rel := sys.recordRelation (.termRel result subjectType)
        (result, path ++ [.relation 0 rel.1 false], rel.2)
    | none =>
        let concreteConformanceSymbol := subjectType.getD (subjectType.length - 2) default
        let associatedTypeSymbol := subjectType.getD (subjectType.length - 1) default
        let relC := sys.recordRelation
          (.concreteTypeWitnessRel concreteConformanceSymbol associatedTypeSymbol
            typeWitnessSymbol)
        let concreteRelationID := relC.1
        let sysC := relC.2
        let typeWitnessSymbol2 := simplifySymbol env key typeWitnessSymbol
        let substPath := simplifySymbolPath env key typeWitnessSymbol
        if requirementKind = .sameType ∧
            typeWitnessSymbol2.getConcreteType? = some concreteType ∧
            typeWitnessSymbol2.getSubstitutions = substitutions then
          let result := key ++ [concreteConformanceSymbol]
          let relS := sysC.recordRelation
            (.sameTypeWitnessRel concreteConformanceSymbol associatedTypeSymbol)
          let path := path ++ [.relation key.length relS.1 true]
            ++ substPath ++ [.relation key.length concreteRelationID false]
          (result, path, relS.2)
        else
          let constraintType := subjectType ++ [typeWitnessSymbol2]
          let path := path ++ substPath ++ [.relation key.length concreteRelationID false]
          (constraintType, path, sysC)

/-- The member type witness delivered by the implementation, or an error
type built from the concrete type when the witness could not be
inferred. -/
def resolvedTypeWitness (concrete : Conformance) (concreteType : Ty)
    (assocTypeName : String) : Ty :=
  match concrete.typeWitness assocTypeName with
  | some t => t
  | none => Ty.error concreteType

/-- Embedding of concretizeTypeWitnessInConformance: resolve the witness of
one member type, falling back to an error type, build the subject term,
and add the induced rule with its derivation. -/
def concretizeTypeWitnessInConformance (env : Env) (key : Term)
    (requirementKind : ReqKind) (concreteConformanceSymbol : Symbol)
    (concrete : Conformance) (assocTypeName : String) (sys : RSys) : RSys :=
  let concreteType := (concreteConformanceSymbol.getConcreteType?).getD default
  let substitutions := concreteConformanceSymbol.getSubstitutions
  let protoName := (concreteConformanceSymbol.getProtocol?).getD ""
  let typeWitness := resolvedTypeWitness concrete concreteType assocTypeName
  let subjectType := key ++ [concreteConformanceSymbol,
                             Symbol.atom (.assocType protoName assocTypeName)]
  let stepOut :=
    computeConstraintTermForTypeWitness env key requirementKind concreteType
      typeWitness subjectType substitutions [] sys
  let constraintType := stepOut.1
  let path := stepOut.2.1
  let sys := stepOut.2.2
  let sys := if path.isEmpty then { sys with emptyPathAssertFailed := true } else sys
  sys.addRule constraintType subjectType (some path)

/-- Embedding of recordConcreteConformanceRule: merge a concrete type rule
and a conformance rule into one compound conformance rule. -/
def recordConcreteConformanceRule (concreteRuleID conformanceRuleID : Nat)
    (requirementKind : ReqKind) (concreteConformanceSymbol : Symbol)
    (sys : RSys) : RSys :=
  let concreteRule := sys.getRule concreteRuleID
  let conformanceRule := sys.getRule conformanceRuleID
  let rhs := if concreteRule.rhs.length > conformanceRule.rhs.length
             then concreteRule.rhs else conformanceRule.rhs
  let path : RewritePath :=
    [.applyRule (rhs.length - conformanceRule.rhs.length) 0 conformanceRuleID true,
     .applyRule (rhs.length - concreteRule.rhs.length) 1 concreteRuleID true]
  let concreteSymbol0 := (concreteRule.isPropertyRule).getD default
  let prefixLength := rhs.length - concreteRule.rhs.length
  let path :=
    if prefixLength > 0 ∧ concreteConformanceSymbol.getSubstitutions ≠ [] then
      path ++ [.prefixSubstitutions prefixLength 1 false]
    else path
  let concreteSymbol :=
    if prefixLength > 0 ∧ concreteConformanceSymbol.getSubstitutions ≠ [] then
      concreteSymbol0.prependPrefixToConcreteSubstitutions
        (Term.toAtoms (rhs.take prefixLength))
    else concreteSymbol0
  let protocolSymbol := (conformanceRule.isPropertyRule).getD default
  let rel := sys.recordRelation
    (.concreteConformanceRel concreteSymbol protocolSymbol concreteConformanceSymbol)
  let path := path ++ [.relation rhs.length rel.1 false]
  let lhs := rhs ++ [concreteConformanceSymbol]
  rel.2.addRule lhs rhs (some (RewritePath.invert path))

/-- One desugared conditional requirement: lazily import an unseen protocol
and translate the requirement through the substitutions into a rule. -/
def conditionalRequirementStep (env : Env) (substitutions : List ATerm)
    (sys : RSys) (req : CondReq) : RSys :=
  let sys :=
    if req.kind = .conformance ∧ !sys.knownProtocols.contains req.proto then
      let rulesPair := env.protocolRules req.proto
      let sys := rulesPair.1.foldl (fun s p => s.addPermanentRule p.1 p.2) sys
      let sys := rulesPair.2.foldl (fun s p => s.addExplicitRule p.1 p.2) sys
      { sys with knownProtocols := sys.knownProtocols ++ [req.proto] }
    else sys
  let pr := env.getRuleForRequirement req substitutions
  sys.addRule pr.1 pr.2 none

/-- Embedding of inferConditionalRequirements. -/
def inferConditionalRequirements (env : Env) (concrete : Conformance)
    (substitutions : List ATerm) (sys : RSys) : RSys :=
  let conditionalRequirements := concrete.conditionalRequirements
  if conditionalRequirements.isEmpty then sys
  else
    let desugared := conditionalRequirements.foldl
      (fun acc r => acc ++ env.desugarRequirement r) []
    desugared.foldl (conditionalRequirementStep env substitutions) sys

/-- The success branch of the per parent concretizer for one interface:
check the conformance is not abstract, insert the rule identifier pair
into the per key cache (the insertion assertion fires when the pair is
already present), record the conformance, record the compound conformance
rule, and walk the member types of the interface.  The conditional
requirement inference is applied by the caller. -/
def concretizeValidConformance (env : Env) (key : Term)
    (requirementKind : ReqKind) (concreteRuleID conformanceRuleID : Nat)
    (concreteType : Ty) (substitutions : List ATerm) (proto : String)
    (conformance : Conformance) (st : St) : St :=
  let pr := (concreteRuleID, conformanceRuleID)
  let st := if conformance.isAbstract
            then { st with abstractAssertFailed := true } else st
  let fresh := (lookupConcreteConformance st.concreteConformances pr).isNone
  let st := if fresh
            then { st with concreteConformances :=
                    st.concreteConformances ++ [(pr, conformance)] }
            else { st with insertionAssertFailed := true }
  let st := { st with conformances := st.conformances ++ [conformance] }
  let concreteConformanceSymbol :=
    Symbol.concreteConformance concreteType substitutions proto
  let sysA := recordConcreteConformanceRule concreteRuleID conformanceRuleID
    requirementKind concreteConformanceSymbol st.sys
  let st := { st with sys := sysA }
  let sysB := (env.associatedTypeMembers proto).foldl
    (fun s a => concretizeTypeWitnessInConformance env key
      requirementKind concreteConformanceSymbol conformance a s)
    st.sys
  { st with sys := sysB }

/-- The loop body of the per parent concretizer, for one protocol of the
conformance list paired with its originating rule identifier. -/
def concretizeOneConformance (env : Env) (key : Term)
    (requirementKind : ReqKind) (concreteRuleID : Nat)
    (concreteType : Ty) (substitutions : List ATerm)
    (st : St) (pc : String × Nat) : St :=
  let proto := pc.1
  let conformanceRuleID := pc.2
  let pr := (concreteRuleID, conformanceRuleID)
  match lookupConcreteConformance st.concreteConformances pr with
  | some conformance =>
      { st with conformances := st.conformances ++ [conformance] }
  | none =>
      match env.lookupConformance concreteType proto with
      | none =>
          if requirementKind = .sameType then
            let st := if (st.sys.getRule concreteRuleID).rhs.length = key.length
                      then { st with sys := st.sys.markConflicting concreteRuleID }
                      else st
            let st := if (st.sys.getRule conformanceRuleID).rhs.length = key.length
                      then { st with sys := st.sys.markConflicting conformanceRuleID }
                      else st
            st
          else st
      | some conformance =>
          let st := concretizeValidConformance env key requirementKind concreteRuleID
            conformanceRuleID concreteType substitutions proto conformance st
          if (Term.getRootProtocol key).isNone then
            { st with sys :=
                inferConditionalRequirements env conformance substitutions st.sys }
          else st

/-- Embedding of concretizeNestedTypesFromConcreteParent: walk the
conformance list of the key with the originating rule identifiers. -/
def concretizeNestedTypesFromConcreteParent (env : Env) (key : Term)
    (requirementKind : ReqKind) (concreteRuleID : Nat)
    (concreteType : Ty) (substitutions : List ATerm)
    (conformsToRules : List Nat) (conformsTo : List String) (st : St) : St :=
  (conformsTo.zip conformsToRules).foldl
    (concretizeOneConformance env key requirementKind concreteRuleID
      concreteType substitutions) st

/-- Whether a rewrite path contains a substitution re-prefixing step. -/
def hasPrefixStep (p : RewritePath) : Bool :=
  p.any (fun s => match s with
    | .prefixSubstitutions _ _ _ => true
    | _ => false)

/-- Whether the property bag of the given term records a concrete type
property whose type equals the witness. -/
def prefixBagMatches (env : Env) (w : Ty) (t : Term) : Bool :=
  match env.lookUpProperties t with
  | some props =>
      match props.concreteTypeProp with
      | some (ct, _) => ct = w
      | none => false
  | none => false

/-- The ground type Int of the worked scenario. -/
def tyInt : Ty := .named "Int" false

/-- The schema type of the worked scenario, a concrete type with parameter
slots. -/
def tyFoo : Ty := .named "Foo" true

/-- An environment whose collaborators are all trivial; concrete fixtures
below are record updates of it. -/
def noneEnv : Env where
  lookUpProperties := fun _ => none
  lookupConformance := fun _ _ => none
  associatedTypeMembers := fun _ => []
  getRelativeSubstitutionSchemaFromType := fun t _ => (t, [])
  simplifySubstitutions := fun _ _ => (none, [])
  desugarRequirement := fun r => [r]
  getRuleForRequirement := fun _ _ => ([], [])
  protocolRules := fun _ => ([], [])

/-- A two symbol key T.[P:A] used by the conflict marking fixtures. -/
def keyTA : Term := [.atom (.genericParam 0), .atom (.assocType "P" "A")]

/-- A concrete type rule whose right hand side is a strict suffix of the key
(inherited from the property map entry of the suffix). -/
def ruleConcreteShort : Rule :=
  { lhs := [.atom (.genericParam 0), .concreteType tyInt []],
    rhs := [.atom (.genericParam 0)] }

/-- A conformance rule whose right hand side is the key itself. -/
def ruleConformanceTA : Rule :=
  { lhs := keyTA ++ [.atom (.protoSym "P")], rhs := keyTA }

/-- The starting state of the conflict marking fixtures. -/
def stTA : St := { sys := { rules := [ruleConcreteShort, ruleConformanceTA] } }

/-- A single parameter key T. -/
def keyT : Term := [.atom (.genericParam 0)]

/-- The term U.V of the worked scenario. -/
def termUV : Term := [.atom (.genericParam 1), .atom (.assocType "Q" "V")]

/-- An implementation whose witness for the member type C is the abstract
type parameter at index zero projected through Q.V. -/
def confAbstractC : Conformance :=
  { typeWitness := fun a => if a = "C" then some (Ty.param 0 [("Q", "V")]) else none }

/-- A property bag for the key T whose concrete type property is Int. -/
def bagT : PropertyBag := { key := keyT, concreteTypeProp := some (tyInt, []) }

/-- An environment exposing the bag of T through the property map. -/
def envBagT : Env :=
  { noneEnv with lookUpProperties := fun t => if t = keyT then some bagT else none }

/-- An implementation whose member type witnesses are all Int. -/
def confIntA : Conformance := { typeWitness := fun _ => some tyInt }

/-- The concrete conformance symbol of the worked scenario with no
substitutions. -/
def ccSymFooP : Symbol := Symbol.concreteConformance tyFoo [] "P"

/-- The subject term T.[Foo : P].[P:A] of the tie off fixture. -/
def subjTA2 : Term := keyT ++ [ccSymFooP, Symbol.atom (.assocType "P" "A")]

/-- A concrete type rule for the term T.A (right hand side of length two). -/
def ruleConcreteTA : Rule :=
  { lhs := [.atom (.genericParam 0), .atom (.assocType "P" "A"), .concreteType tyInt []],
    rhs := [.atom (.genericParam 0), .atom (.assocType "P" "A")] }

/-- A conformance rule for the term T (right hand side of length one). -/
def ruleConformanceT : Rule :=
  { lhs := [.atom (.genericParam 0), .atom (.protoSym "P")],
    rhs := [.atom (.genericParam 0)] }

/-- The starting system of the rule merging fixture. -/
def sysMerge : RSys := { rules := [ruleConcreteTA, ruleConformanceT] }

/-- A concrete conformance symbol with a non empty substitution list. -/
def ccSymFooPU : Symbol := Symbol.concreteConformance tyFoo [[.genericParam 1]] "P"

/-- A conditional conformance requirement of the fixture, requiring the
substituted parameter to conform to Q. -/
def reqUQ : CondReq := { kind := .conformance, proto := "Q" }

/-- An implementation with one conditional requirement. -/
def confCond : Conformance :=
  { typeWitness := fun _ => none, conditionalRequirements := [reqUQ] }

/-- An implementation whose member type witnesses are all the parent
concrete type itself. -/
def confFooSelf : Conformance := { typeWitness := fun _ => some tyFoo }

/-- An environment translating a conformance requirement into the rule
U.[Q] to U. -/
def envCond : Env :=
  { noneEnv with
      getRuleForRequirement := fun r _ =>
        ([Symbol.atom (.genericParam 1), Symbol.atom (.protoSym r.proto)],
         [Symbol.atom (.genericParam 1)]) }

/-- An empty rewrite system. -/
def sysEmpty : RSys := { rules := [] }

/-- An implementation that resolves no member type witness. -/
def confNoWitness : Conformance := { typeWitness := fun _ => none }

/-- An implementation whose member type witnesses are all the error type
over the schema of the worked scenario. -/
def confErrWitness : Conformance := { typeWitness := fun _ => some (Ty.error tyFoo) }

/-- A key rooted in the requirement signature of the protocol Z. -/
def keyZ : Term := [.atom (.protoSym "Z")]

/-- A state wrapping the empty system. -/
def stEmptySt : St := { sys := sysEmpty }

/-- Resolvedness of one interface entry with respect to a cache state:
either the conformance lookup fails for it, or its rule identifier pair is
already cached. -/
def stepResolved (env : Env) (ct : Ty) (cid : Nat)
    (cache : List ((Nat × Nat) × Conformance)) (pc : String × Nat) : Prop :=
  env.lookupConformance ct pc.1 = none ∨
    ∃ v, lookupConcreteConformance cache (cid, pc.2) = some v

/-- A state whose per key cache already holds the pair of rule zero and
rule one. -/
def stCached : St :=
  { sys := sysEmpty, concreteConformances := [((0, 1), confNoWitness)] }

/-- An environment whose conformance lookup succeeds for the interface P
with the conditional implementation. -/
def envConfP : Env :=
  { noneEnv with lookupConformance := fun _ p => if p = "P" then some confCond else none }


/-! Basic facts about the rule store operations. -/

theorem getRule_markConflicting_ne {sys : RSys} {i j : Nat} (h : i ≠ j) :
    (sys.markConflicting j).getRule i = sys.getRule i := by
  simp [RSys.markConflicting, RSys.getRule, List.getD_eq_getElem?_getD,
    List.getElem?_set_ne (Ne.symm h)]

theorem getRule_markConflicting_self {sys : RSys} {i : Nat} (h : i < sys.rules.length) :
    (sys.markConflicting i).getRule i = { sys.getRule i with conflicting := true } := by
  simp [RSys.markConflicting, RSys.getRule, List.getD_eq_getElem?_getD,
    List.getElem?_set_eq_of_lt _ h, List.getElem?_eq_getElem h]

theorem rhs_getRule_markConflicting (sys : RSys) (i j : Nat) :
    ((sys.markConflicting j).getRule i).rhs = (sys.getRule i).rhs := by
  rcases eq_or_ne i j with h | h
  · subst h
    by_cases hl : i < sys.rules.length
    · rw [getRule_markConflicting_self hl]
    · rw [RSys.markConflicting, List.set_eq_of_length_le (Nat.le_of_not_lt hl)]
  · rw [getRule_markConflicting_ne h]

theorem addCalls_markConflicting (sys : RSys) (i : Nat) :
    (sys.markConflicting i).addCalls = sys.addCalls := rfl

theorem rulesLength_markConflicting (sys : RSys) (i : Nat) :
    (sys.markConflicting i).rules.length = sys.rules.length := by
  simp [RSys.markConflicting]

/-- C10: when a conformance lookup requested by a SameType requirement
fails, the concrete type rule is marked conflicting exactly when its right
hand side has the same length as the key term, and likewise for the
conformance rule; a rule whose right hand side length differs from the key
is left unmarked even though the conflict is detected on this key. -/
theorem conflictMarkingRequiresKeyLength
    (env : Env) (key : Term) (concreteRuleID : Nat) (concreteType : Ty)
    (substitutions : List ATerm) (st : St) (proto : String) (conformanceRuleID : Nat)
    (hcache : lookupConcreteConformance st.concreteConformances
        (concreteRuleID, conformanceRuleID) = none)
    (hconf : env.lookupConformance concreteType proto = none)
    (hne : concreteRuleID ≠ conformanceRuleID)
    (hci : concreteRuleID < st.sys.rules.length)
    (hfi : conformanceRuleID < st.sys.rules.length)
    (hc0 : (st.sys.getRule concreteRuleID).conflicting = false)
    (hf0 : (st.sys.getRule conformanceRuleID).conflicting = false) :
    (((concretizeOneConformance env key .sameType concreteRuleID concreteType
          substitutions st (proto, conformanceRuleID)).sys.getRule
            concreteRuleID).conflicting = true
        ↔ (st.sys.getRule concreteRuleID).rhs.length = key.length) ∧
    (((concretizeOneConformance env key .sameType concreteRuleID concreteType
          substitutions st (proto, conformanceRuleID)).sys.getRule
            conformanceRuleID).conflicting = true
        ↔ (st.sys.getRule conformanceRuleID).rhs.length = key.length) := by
  unfold concretizeOneConformance
  simp only [hcache, hconf, if_true]
  by_cases h1 : (st.sys.getRule concreteRuleID).rhs.length = key.length
  · rw [if_pos h1]
    rw [show ({ st with sys := st.sys.markConflicting concreteRuleID } : St).sys
          = st.sys.markConflicting concreteRuleID from rfl,
        rhs_getRule_markConflicting]
    by_cases h2 : (st.sys.getRule conformanceRuleID).rhs.length = key.length
    · rw [if_pos h2]
      dsimp only
      constructor
      · rw [getRule_markConflicting_ne hne, getRule_markConflicting_self hci]
        simp [h1]
      · rw [getRule_markConflicting_self
          (by rw [rulesLength_markConflicting]; exact hfi)]
        simp [h2]
    · rw [if_neg h2]
      dsimp only
      constructor
      · rw [getRule_markConflicting_self hci]
        simp [h1]
      · rw [getRule_markConflicting_ne (Ne.symm hne)]
        simp [hf0, h2]
  · rw [if_neg h1]
    by_cases h2 : (st.sys.getRule conformanceRuleID).rhs.length = key.length
    · rw [if_pos h2]
      dsimp only
      constructor
      · rw [getRule_markConflicting_ne hne]
        simp [hc0, h1]
      · rw [getRule_markConflicting_self hfi]
        simp [h2]
    · rw [if_neg h2]
      constructor
      · simp [hc0, h1]
      · simp [hf0, h2]

/-- Closed instance of C10 at the fixture: the concrete type rule, whose
right hand side is shorter than the key, stays unmarked, while the
conformance rule whose right hand side is the key gets marked. -/
theorem conflictMarkingRequiresKeyLength_witness :
    lookupConcreteConformance stTA.concreteConformances (0, 1) = none ∧
    noneEnv.lookupConformance tyInt "P" = none ∧
    (((concretizeOneConformance noneEnv keyTA .sameType 0 tyInt [] stTA
        ("P", 1)).sys.getRule 0).conflicting = true
      ↔ (stTA.sys.getRule 0).rhs.length = keyTA.length) := by
  refine ⟨rfl, rfl, ?_⟩
  exact (conflictMarkingRequiresKeyLength noneEnv keyTA 0 tyInt [] stTA "P" 1
    rfl rfl (by decide) (by decide) (by decide) rfl rfl).1

/-- C1 counterexample: at the fixture, a SameType requirement with a
missing conformance leaves the concrete type rule unmarked, because its
right hand side (inherited from the suffix) is shorter than the key; the
claim that both rules are always marked conflicting is false. -/
theorem missingConformanceBothMarked_counterexample :
    ((concretizeOneConformance noneEnv keyTA .sameType 0 tyInt [] stTA
        ("P", 1)).sys.getRule 0).conflicting = false ∧
    ((concretizeOneConformance noneEnv keyTA .sameType 0 tyInt [] stTA
        ("P", 1)).sys.getRule 1).conflicting = true ∧
    (stTA.sys.getRule 0).rhs.length ≠ keyTA.length := by
  refine ⟨rfl, rfl, by decide⟩

/-- C1 (amended): when the conformance lookup fails: for a Superclass
requirement nothing is marked and the state is unchanged; for a SameType
requirement no member type rules are synthesized, nothing is cached, and
each of the concrete type rule and the conformance rule is marked
conflicting precisely when its right hand side has the same length as the
key, a rule of differing right hand side length being left untouched;
processing always continues with the next interface of the list. -/
theorem missingConformancePolicy
    (env : Env) (key : Term) (concreteRuleID : Nat) (concreteType : Ty)
    (substitutions : List ATerm) (st : St) (proto : String) (conformanceRuleID : Nat)
    (prest : List String) (frest : List Nat) (st2 : St)
    (hcache : lookupConcreteConformance st.concreteConformances
        (concreteRuleID, conformanceRuleID) = none)
    (hconf : env.lookupConformance concreteType proto = none)
    (hne : concreteRuleID ≠ conformanceRuleID)
    (hci : concreteRuleID < st.sys.rules.length)
    (hfi : conformanceRuleID < st.sys.rules.length)
    (hst2 : st2 = concretizeOneConformance env key .sameType concreteRuleID
        concreteType substitutions st (proto, conformanceRuleID)) :
    concretizeOneConformance env key .superclass concreteRuleID concreteType
        substitutions st (proto, conformanceRuleID) = st ∧
    st2.sys.addCalls = st.sys.addCalls ∧
    st2.concreteConformances = st.concreteConformances ∧
    ((st.sys.getRule concreteRuleID).rhs.length = key.length →
        (st2.sys.getRule concreteRuleID).conflicting = true) ∧
    ((st.sys.getRule concreteRuleID).rhs.length ≠ key.length →
        st2.sys.getRule concreteRuleID = st.sys.getRule concreteRuleID) ∧
    ((st.sys.getRule conformanceRuleID).rhs.length = key.length →
        (st2.sys.getRule conformanceRuleID).conflicting = true) ∧
    ((st.sys.getRule conformanceRuleID).rhs.length ≠ key.length →
        st2.sys.getRule conformanceRuleID = st.sys.getRule conformanceRuleID) ∧
    (∀ rk : ReqKind,
      concretizeNestedTypesFromConcreteParent env key rk concreteRuleID concreteType
        substitutions (conformanceRuleID :: frest) (proto :: prest) st =
      concretizeNestedTypesFromConcreteParent env key rk concreteRuleID concreteType
        substitutions frest prest
        (concretizeOneConformance env key rk concreteRuleID concreteType substitutions
          st (proto, conformanceRuleID))) := by
  have hsup : concretizeOneConformance env key .superclass concreteRuleID concreteType
      substitutions st (proto, conformanceRuleID) = st := by
    unfold concretizeOneConformance
    simp [hcache, hconf]
  subst hst2
  have hmain :
      (concretizeOneConformance env key .sameType concreteRuleID
          concreteType substitutions st (proto, conformanceRuleID)).sys.addCalls
        = st.sys.addCalls ∧
      (concretizeOneConformance env key .sameType concreteRuleID
          concreteType substitutions st (proto, conformanceRuleID)).concreteConformances
        = st.concreteConformances ∧
      ((st.sys.getRule concreteRuleID).rhs.length = key.length →
        ((concretizeOneConformance env key .sameType concreteRuleID
            concreteType substitutions st (proto, conformanceRuleID)).sys.getRule
              concreteRuleID).conflicting = true) ∧
      ((st.sys.getRule concreteRuleID).rhs.length ≠ key.length →
        (concretizeOneConformance env key .sameType concreteRuleID
            concreteType substitutions st (proto, conformanceRuleID)).sys.getRule
              concreteRuleID = st.sys.getRule concreteRuleID) ∧
      ((st.sys.getRule conformanceRuleID).rhs.length = key.length →
        ((concretizeOneConformance env key .sameType concreteRuleID
            concreteType substitutions st (proto, conformanceRuleID)).sys.getRule
              conformanceRuleID).conflicting = true) ∧
      ((st.sys.getRule conformanceRuleID).rhs.length ≠ key.length →
        (concretizeOneConformance env key .sameType concreteRuleID
            concreteType substitutions st (proto, conformanceRuleID)).sys.getRule
              conformanceRuleID = st.sys.getRule conformanceRuleID) := by
    unfold concretizeOneConformance
    simp only [hcache, hconf, if_true]
    by_cases h1 : (st.sys.getRule concreteRuleID).rhs.length = key.length
    · rw [if_pos h1]
      rw [show ({ st with sys := st.sys.markConflicting concreteRuleID } : St).sys
            = st.sys.markConflicting concreteRuleID from rfl,
          rhs_getRule_markConflicting]
      by_cases h2 : (st.sys.getRule conformanceRuleID).rhs.length = key.length
      · rw [if_pos h2]
        refine ⟨rfl, rfl, ?_, ?_, ?_, ?_⟩
        · intro _
          rw [show ({ st with sys :=
                (st.sys.markConflicting concreteRuleID).markConflicting conformanceRuleID } :
                  St).sys
              = (st.sys.markConflicting concreteRuleID).markConflicting conformanceRuleID
              from rfl]
          rw [getRule_markConflicting_ne hne, getRule_markConflicting_self hci]
        · intro hcon; exact absurd h1 hcon
        · intro _
          rw [show ({ st with sys :=
                (st.sys.markConflicting concreteRuleID).markConflicting conformanceRuleID } :
                  St).sys
              = (st.sys.markConflicting concreteRuleID).markConflicting conformanceRuleID
              from rfl]
          rw [getRule_markConflicting_self
            (by rw [rulesLength_markConflicting]; exact hfi)]
        · intro hcon; exact absurd h2 hcon
      · rw [if_neg h2]
        refine ⟨rfl, rfl, ?_, ?_, ?_, ?_⟩
        · intro _
          rw [show ({ st with sys := st.sys.markConflicting concreteRuleID } : St).sys
              = st.sys.markConflicting concreteRuleID from rfl]
          rw [getRule_markConflicting_self hci]
        · intro hcon; exact absurd h1 hcon
        · intro hcon; exact absurd hcon h2
        · intro _
          rw [show ({ st with sys := st.sys.markConflicting concreteRuleID } : St).sys
              = st.sys.markConflicting concreteRuleID from rfl]
          rw [getRule_markConflicting_ne (Ne.symm hne)]
    · rw [if_neg h1]
      by_cases h2 : (st.sys.getRule conformanceRuleID).rhs.length = key.length
      · rw [if_pos h2]
        refine ⟨rfl, rfl, ?_, ?_, ?_, ?_⟩
        · intro hcon; exact absurd hcon h1
        · intro _
          rw [show ({ st with sys := st.sys.markConflicting conformanceRuleID } : St).sys
              = st.sys.markConflicting conformanceRuleID from rfl]
          rw [getRule_markConflicting_ne hne]
        · intro _
          rw [show ({ st with sys := st.sys.markConflicting conformanceRuleID } : St).sys
              = st.sys.markConflicting conformanceRuleID from rfl]
          rw [getRule_markConflicting_self hfi]
        · intro hcon; exact absurd h2 hcon
      · rw [if_neg h2]
        exact ⟨rfl, rfl, fun hcon => absurd hcon h1, fun _ => rfl,
          fun hcon => absurd hcon h2, fun _ => rfl⟩
  exact ⟨hsup, hmain.1, hmain.2.1, hmain.2.2.1, hmain.2.2.2.1,
    hmain.2.2.2.2.1, hmain.2.2.2.2.2, fun rk => rfl⟩

/-- Closed instance of C1 (amended) at the fixture. -/
theorem missingConformancePolicy_witness :
    concretizeOneConformance noneEnv keyTA .superclass 0 tyInt [] stTA ("P", 1) = stTA ∧
    (concretizeOneConformance noneEnv keyTA .sameType 0 tyInt [] stTA
        ("P", 1)).sys.addCalls = stTA.sys.addCalls :=
  ⟨(missingConformancePolicy noneEnv keyTA 0 tyInt [] stTA "P" 1 [] []
      (concretizeOneConformance noneEnv keyTA .sameType 0 tyInt [] stTA ("P", 1))
      rfl rfl (by decide) (by decide) (by decide) rfl).1,
   (missingConformancePolicy noneEnv keyTA 0 tyInt [] stTA "P" 1 [] []
      (concretizeOneConformance noneEnv keyTA .sameType 0 tyInt [] stTA ("P", 1))
      rfl rfl (by decide) (by decide) (by decide) rfl).2.1⟩

/-! Preservation lemmas for the rule addition log. -/

theorem addCalls_recordRelation (sys : RSys) (r : Relation) :
    (sys.recordRelation r).2.addCalls = sys.addCalls := by
  unfold RSys.recordRelation
  split <;> rfl

theorem addCalls_computeConstraintTerm (env : Env) (key : Term) (rk : ReqKind)
    (ct w : Ty) (subj : Term) (subs : List ATerm) (p : RewritePath) (sys : RSys) :
    (computeConstraintTermForTypeWitness env key rk ct w subj subs p sys).2.2.addCalls
      = sys.addCalls := by
  unfold computeConstraintTermForTypeWitness
  split
  · exact addCalls_recordRelation ..
  · split
    · cases hF : findReusablePrefixBag env key w (List.length key) with
      | some props => simp [hF, addCalls_recordRelation]
      | none =>
          simp only [hF]
          split
          · simp [addCalls_recordRelation]
          · simp [addCalls_recordRelation]
    · dsimp only
      split
      · simp [addCalls_recordRelation]
      · simp [addCalls_recordRelation]

theorem addCalls_concretizeTypeWitness (env : Env) (key : Term) (rk : ReqKind)
    (ccSym : Symbol) (conf : Conformance) (a : String) (sys : RSys) :
    ∃ c : AddCall,
      (concretizeTypeWitnessInConformance env key rk ccSym conf a sys).addCalls
        = sys.addCalls ++ [c] ∧
      c.rhs = key ++ [ccSym, Symbol.atom (.assocType ((ccSym.getProtocol?).getD "") a)] ∧
      c.kind = .induced := by
  unfold concretizeTypeWitnessInConformance
  dsimp only
  refine ⟨{ lhs := (computeConstraintTermForTypeWitness env key rk
                      ((ccSym.getConcreteType?).getD default)
                      (resolvedTypeWitness conf ((ccSym.getConcreteType?).getD default) a)
                      (key ++ [ccSym,
                        Symbol.atom (.assocType ((ccSym.getProtocol?).getD "") a)])
                      ccSym.getSubstitutions [] sys).1,
            rhs := key ++ [ccSym, Symbol.atom (.assocType ((ccSym.getProtocol?).getD "") a)],
            path := some (computeConstraintTermForTypeWitness env key rk
                      ((ccSym.getConcreteType?).getD default)
                      (resolvedTypeWitness conf ((ccSym.getConcreteType?).getD default) a)
                      (key ++ [ccSym,
                        Symbol.atom (.assocType ((ccSym.getProtocol?).getD "") a)])
                      ccSym.getSubstitutions [] sys).2.1,
            kind := .induced }, ?_, rfl, rfl⟩
  split
  · simp [RSys.addRule, addCalls_computeConstraintTerm]
  · simp [RSys.addRule, addCalls_computeConstraintTerm]

theorem addCallsLength_concretizeTypeWitness (env : Env) (key : Term) (rk : ReqKind)
    (ccSym : Symbol) (conf : Conformance) (a : String) (sys : RSys) :
    (concretizeTypeWitnessInConformance env key rk ccSym conf a sys).addCalls.length
      = sys.addCalls.length + 1 := by
  obtain ⟨c, hc, -, -⟩ := addCalls_concretizeTypeWitness env key rk ccSym conf a sys
  simp [hc]

theorem addCallsLength_assocTypeFold (env : Env) (key : Term) (rk : ReqKind)
    (ccSym : Symbol) (conf : Conformance) (names : List String) (sys : RSys) :
    ((names.foldl (fun s a => concretizeTypeWitnessInConformance env key rk ccSym
        conf a s) sys).addCalls).length
      = sys.addCalls.length + names.length := by
  induction names generalizing sys with
  | nil => simp
  | cons a rest ih =>
      simp only [List.foldl_cons, ih, addCallsLength_concretizeTypeWitness,
        List.length_cons]
      omega

/-- C9: when the implementation cannot resolve the witness of a member
type, the synthesizer substitutes an explicit error placeholder type for
the witness (the run coincides with a run whose witness is the error
type), still builds the subject term and emits exactly one rule with that
subject as its right hand side, and the surrounding loop still processes
every member type. -/
theorem errorWitnessStillEmitsRule
    (env : Env) (key : Term) (rk : ReqKind) (schema : Ty) (subs : List ATerm)
    (proto : String) (conf conf2 : Conformance) (assocName : String) (sys : RSys)
    (hw : conf.typeWitness assocName = none)
    (hw2 : conf2.typeWitness assocName = some (Ty.error schema)) :
    concretizeTypeWitnessInConformance env key rk
        (Symbol.concreteConformance schema subs proto) conf assocName sys =
      concretizeTypeWitnessInConformance env key rk
        (Symbol.concreteConformance schema subs proto) conf2 assocName sys ∧
    (∃ c : AddCall,
      (concretizeTypeWitnessInConformance env key rk
          (Symbol.concreteConformance schema subs proto) conf assocName sys).addCalls
        = sys.addCalls ++ [c] ∧
      c.rhs = key ++ [Symbol.concreteConformance schema subs proto,
                      Symbol.atom (.assocType proto assocName)]) ∧
    (∀ names : List String, ∀ sys0 : RSys,
      ((names.foldl (fun s a => concretizeTypeWitnessInConformance env key rk
          (Symbol.concreteConformance schema subs proto) conf a s) sys0).addCalls).length
        = sys0.addCalls.length + names.length) := by
  refine ⟨?_, ?_, ?_⟩
  · unfold concretizeTypeWitnessInConformance
    simp [resolvedTypeWitness, hw, hw2, Symbol.getConcreteType?]
  · obtain ⟨c, hc, hrhs, -⟩ := addCalls_concretizeTypeWitness env key rk
      (Symbol.concreteConformance schema subs proto) conf assocName sys
    exact ⟨c, hc, by simpa [Symbol.getProtocol?] using hrhs⟩
  · intro names sys0
    exact addCallsLength_assocTypeFold env key rk
      (Symbol.concreteConformance schema subs proto) conf names sys0

/-- Closed instance of C9 at the fixture: with no resolvable witness the
run coincides with the run whose witness is the error type. -/
theorem errorWitnessStillEmitsRule_witness :
    concretizeTypeWitnessInConformance noneEnv keyT .sameType
        (Symbol.concreteConformance tyFoo [] "P") confNoWitness "A" sysEmpty =
      concretizeTypeWitnessInConformance noneEnv keyT .sameType
        (Symbol.concreteConformance tyFoo [] "P") confErrWitness "A" sysEmpty ∧
    (concretizeTypeWitnessInConformance noneEnv keyT .sameType
        (Symbol.concreteConformance tyFoo [] "P") confNoWitness "A"
          sysEmpty).addCalls.length = sysEmpty.addCalls.length + 1 :=
  ⟨(errorWitnessStillEmitsRule noneEnv keyT .sameType tyFoo [] "P" confNoWitness
      confErrWitness "A" sysEmpty rfl rfl).1,
   by
    have h := (errorWitnessStillEmitsRule noneEnv keyT .sameType tyFoo [] "P"
      confNoWitness confErrWitness "A" sysEmpty rfl rfl).2.2 ["A"] sysEmpty
    simpa using h⟩

theorem mem_of_findRelationIdx {r : Relation} :
    ∀ {l : List Relation} {i : Nat}, findRelationIdx r l = some i → r ∈ l := by
  intro l
  induction l with
  | nil => intro i h; cases h
  | cons x xs ih =>
      intro i h
      by_cases hx : x = r
      · subst hx; exact List.mem_cons_self ..
      · simp only [findRelationIdx, if_neg hx, Option.map_eq_some'] at h
        rcases h with ⟨j, hj, -⟩
        exact List.mem_cons_of_mem _ (ih hj)

theorem relation_mem_recordRelation (sys : RSys) (r : Relation) :
    r ∈ (sys.recordRelation r).2.relations := by
  unfold RSys.recordRelation
  cases h : findRelationIdx r sys.relations with
  | some i => exact mem_of_findRelationIdx h
  | none => simp

theorem relations_addRule (sys : RSys) (l r : Term) (p : Option RewritePath) :
    (sys.addRule l r p).relations = sys.relations := rfl

/-- C6: for an abstract type witness (a type parameter reference into one
of the substitution terms, possibly followed by member type projections)
the synthesizer rewrites it relative to the substitution terms into a term
R, records the relation between R and the subject, and emits the rule with
R as its left hand side and the subject as its right hand side; R is built
of atomic symbols only and is never wrapped in a concrete type symbol. -/
theorem abstractWitnessRule
    (env : Env) (key : Term) (rk : ReqKind) (schema : Ty) (subs : List ATerm)
    (proto : String) (conf : Conformance) (assocName : String) (sys : RSys)
    (n : Nat) (ppath : List (String × String))
    (hw : conf.typeWitness assocName = some (Ty.param n ppath)) :
    (concretizeTypeWitnessInConformance env key rk
        (Symbol.concreteConformance schema subs proto) conf assocName sys).addCalls
      = sys.addCalls ++
        [{ lhs := getRelativeTermForType (Ty.param n ppath) subs,
           rhs := key ++ [Symbol.concreteConformance schema subs proto,
                          Symbol.atom (.assocType proto assocName)],
           path := some [RewriteStep.relation 0
             (sys.recordRelation (.termRel
               (getRelativeTermForType (Ty.param n ppath) subs)
               (key ++ [Symbol.concreteConformance schema subs proto,
                        Symbol.atom (.assocType proto assocName)]))).1 false],
           kind := .induced }] ∧
    Relation.termRel (getRelativeTermForType (Ty.param n ppath) subs)
        (key ++ [Symbol.concreteConformance schema subs proto,
                 Symbol.atom (.assocType proto assocName)])
      ∈ (concretizeTypeWitnessInConformance env key rk
          (Symbol.concreteConformance schema subs proto) conf assocName
          sys).relations ∧
    (∀ s ∈ getRelativeTermForType (Ty.param n ppath) subs,
      ∃ a : Atom, s = Symbol.atom a) := by
  refine ⟨?_, ?_, ?_⟩
  · simp [concretizeTypeWitnessInConformance, computeConstraintTermForTypeWitness,
      resolvedTypeWitness, hw, Ty.isTypeParameter, Symbol.getConcreteType?,
      Symbol.getSubstitutions, Symbol.getProtocol?, RSys.addRule,
      addCalls_recordRelation]
  · have hmem := relation_mem_recordRelation sys
      (Relation.termRel (getRelativeTermForType (Ty.param n ppath) subs)
        (key ++ [Symbol.concreteConformance schema subs proto,
                 Symbol.atom (.assocType proto assocName)]))
    simpa [concretizeTypeWitnessInConformance, computeConstraintTermForTypeWitness,
      resolvedTypeWitness, hw, Ty.isTypeParameter, Symbol.getConcreteType?,
      Symbol.getSubstitutions, Symbol.getProtocol?, RSys.addRule] using hmem
  · intro s hs
    simp only [getRelativeTermForType, liftATerm, List.mem_append, List.mem_map] at hs
    rcases hs with ⟨a, -, ha⟩ | ⟨pr, -, ha⟩
    · exact ⟨a, ha.symm⟩
    · exact ⟨.assocType pr.1 pr.2, ha.symm⟩

/-- Closed instance of C6 at the worked scenario: the witness of C in the
conformance of Foo with substitutions [U] is the abstract parameter
projected through Q.V, and the induced rule relates U.V to the subject. -/
theorem abstractWitnessRule_witness :
    getRelativeTermForType (Ty.param 0 [("Q", "V")]) [[.genericParam 1]] = termUV ∧
    (concretizeTypeWitnessInConformance noneEnv keyT .sameType
        (Symbol.concreteConformance tyFoo [[.genericParam 1]] "P") confAbstractC "C"
        sysEmpty).addCalls
      = sysEmpty.addCalls ++
        [{ lhs := termUV,
           rhs := keyT ++ [Symbol.concreteConformance tyFoo [[.genericParam 1]] "P",
                          Symbol.atom (.assocType "P" "C")],
           path := some [RewriteStep.relation 0
             (sysEmpty.recordRelation (.termRel termUV
               (keyT ++ [Symbol.concreteConformance tyFoo [[.genericParam 1]] "P",
                        Symbol.atom (.assocType "P" "C")]))).1 false],
           kind := .induced }] :=
  ⟨rfl, (abstractWitnessRule noneEnv keyT .sameType tyFoo [[.genericParam 1]] "P"
    confAbstractC "C" sysEmpty 0 [("Q", "V")] rfl).1⟩

/-- Characterization of the prefix scan: a successful scan returns the bag
of the longest matching prefix, and every strictly longer prefix within
the fuel bound fails to match. -/
theorem findReusablePrefixBag_spec {env : Env} {key : Term} {w : Ty} :
    ∀ {fuel : Nat} {props : PropertyBag},
      findReusablePrefixBag env key w fuel = some props →
      ∃ m, 0 < m ∧ m ≤ fuel ∧
        env.lookUpProperties (key.take m) = some props ∧
        (∃ csubs, props.concreteTypeProp = some (w, csubs)) ∧
        ∀ m2, m < m2 → m2 ≤ fuel →
          prefixBagMatches env w (key.take m2) = false := by
  intro fuel
  induction fuel with
  | zero => intro props h; exact absurd h (by simp [findReusablePrefixBag])
  | succ k ih =>
      intro props h
      simp only [findReusablePrefixBag] at h
      rcases hl : env.lookUpProperties (key.take (k + 1)) with _ | p
      · simp only [hl] at h
        obtain ⟨m, hm0, hmk, hlook, hcp, hnone⟩ := ih h
        refine ⟨m, hm0, Nat.le_succ_of_le hmk, hlook, hcp, ?_⟩
        intro m2 hm2 hm2le
        rcases Nat.eq_or_lt_of_le hm2le with he | hlt
        · rw [he]; simp [prefixBagMatches, hl]
        · exact hnone m2 hm2 (Nat.lt_succ_iff.mp hlt)
      · simp only [hl] at h
        rcases hc : p.concreteTypeProp with _ | ⟨ct, cs⟩
        · simp only [hc] at h
          obtain ⟨m, hm0, hmk, hlook, hcp, hnone⟩ := ih h
          refine ⟨m, hm0, Nat.le_succ_of_le hmk, hlook, hcp, ?_⟩
          intro m2 hm2 hm2le
          rcases Nat.eq_or_lt_of_le hm2le with he | hlt
          · rw [he]; simp [prefixBagMatches, hl, hc]
          · exact hnone m2 hm2 (Nat.lt_succ_iff.mp hlt)
        · simp only [hc] at h
          by_cases hct : ct = w
          · rw [if_pos hct] at h
            cases h
            refine ⟨k + 1, Nat.succ_pos _, le_refl _, hl, ⟨cs, by rw [hc, hct]⟩, ?_⟩
            intro m2 hm2 hm2le
            exact absurd (lt_of_lt_of_le hm2 hm2le) (lt_irrefl _)
          · rw [if_neg hct] at h
            obtain ⟨m, hm0, hmk, hlook, hcp, hnone⟩ := ih h
            refine ⟨m, hm0, Nat.le_succ_of_le hmk, hlook, hcp, ?_⟩
            intro m2 hm2 hm2le
            rcases Nat.eq_or_lt_of_le hm2le with he | hlt
            · rw [he]; simp [prefixBagMatches, hl, hc, hct]
            · exact hnone m2 hm2 (Nat.lt_succ_iff.mp hlt)

/-- C2 counterexample: at the tie off fixture the single emitted rule
addition has the prefix key followed by the witness concrete type symbol
on the left and the subject on the right, not the subject on the left with
the bare prefix key on the right as the claim states. -/
theorem tieOffRuleShape_counterexample :
    ((concretizeTypeWitnessInConformance envBagT keyT .sameType ccSymFooP confIntA "A"
        sysEmpty).addCalls.map (fun c => (c.lhs, c.rhs)))
      = [(keyT ++ [Symbol.concreteType tyInt []], subjTA2)] ∧
    (keyT ++ [Symbol.concreteType tyInt []], subjTA2) ≠ (subjTA2, keyT) :=
  ⟨rfl, by decide⟩

/-- C2 (amended): for a fully concrete member type witness the synthesizer
scans the prefixes of the key longest first, stops at the first prefix
whose property bag records a concrete type equal to the witness, records a
relation between that prefix key extended with the witness concrete type
symbol and the subject, and emits the rule whose left hand side is the
prefix key extended with the witness concrete type symbol and whose right
hand side is the subject. -/
theorem tieOffRuleShape
    (env : Env) (key : Term) (rk : ReqKind) (schema : Ty) (subs : List ATerm)
    (proto : String) (conf : Conformance) (assocName : String) (sys : RSys)
    (w : Ty) (props : PropertyBag)
    (hw : conf.typeWitness assocName = some w)
    (hwp : w.isTypeParameter = false)
    (hnp : w.hasTypeParameter = false)
    (hfind : findReusablePrefixBag env key w key.length = some props) :
    (∃ m, 0 < m ∧ m ≤ key.length ∧
      env.lookUpProperties (key.take m) = some props ∧
      (∃ csubs, props.concreteTypeProp = some (w, csubs)) ∧
      ∀ m2, m < m2 → m2 ≤ key.length →
        prefixBagMatches env w (key.take m2) = false) ∧
    (concretizeTypeWitnessInConformance env key rk
        (Symbol.concreteConformance schema subs proto) conf assocName sys).addCalls
      = sys.addCalls ++
        [{ lhs := props.key ++
             [Symbol.concreteType (env.getRelativeSubstitutionSchemaFromType w subs).1
               (env.getRelativeSubstitutionSchemaFromType w subs).2],
           rhs := key ++ [Symbol.concreteConformance schema subs proto,
                          Symbol.atom (.assocType proto assocName)],
           path := some [RewriteStep.relation 0
             (sys.recordRelation (.termRel
               (props.key ++
                 [Symbol.concreteType
                   (env.getRelativeSubstitutionSchemaFromType w subs).1
                   (env.getRelativeSubstitutionSchemaFromType w subs).2])
               (key ++ [Symbol.concreteConformance schema subs proto,
                        Symbol.atom (.assocType proto assocName)]))).1 false],
           kind := .induced }] ∧
    Relation.termRel
        (props.key ++
          [Symbol.concreteType (env.getRelativeSubstitutionSchemaFromType w subs).1
            (env.getRelativeSubstitutionSchemaFromType w subs).2])
        (key ++ [Symbol.concreteConformance schema subs proto,
                 Symbol.atom (.assocType proto assocName)])
      ∈ (concretizeTypeWitnessInConformance env key rk
          (Symbol.concreteConformance schema subs proto) conf assocName
          sys).relations := by
  refine ⟨findReusablePrefixBag_spec hfind, ?_, ?_⟩
  · simp [concretizeTypeWitnessInConformance, computeConstraintTermForTypeWitness,
      resolvedTypeWitness, hw, hwp, hnp, hfind, Symbol.getConcreteType?,
      Symbol.getSubstitutions, Symbol.getProtocol?, RSys.addRule,
      addCalls_recordRelation]
  · have hmem := relation_mem_recordRelation sys
      (Relation.termRel
        (props.key ++
          [Symbol.concreteType (env.getRelativeSubstitutionSchemaFromType w subs).1
            (env.getRelativeSubstitutionSchemaFromType w subs).2])
        (key ++ [Symbol.concreteConformance schema subs proto,
                 Symbol.atom (.assocType proto assocName)]))
    simpa [concretizeTypeWitnessInConformance, computeConstraintTermForTypeWitness,
      resolvedTypeWitness, hw, hwp, hnp, hfind, Symbol.getConcreteType?,
      Symbol.getSubstitutions, Symbol.getProtocol?, RSys.addRule] using hmem

/-- Closed instance of C2 (amended) at the tie off fixture. -/
theorem tieOffRuleShape_witness :
    (concretizeTypeWitnessInConformance envBagT keyT .sameType ccSymFooP confIntA "A"
        sysEmpty).addCalls
      = sysEmpty.addCalls ++
        [{ lhs := bagT.key ++
             [Symbol.concreteType
               (envBagT.getRelativeSubstitutionSchemaFromType tyInt []).1
               (envBagT.getRelativeSubstitutionSchemaFromType tyInt []).2],
           rhs := keyT ++ [Symbol.concreteConformance tyFoo [] "P",
                          Symbol.atom (.assocType "P" "A")],
           path := some [RewriteStep.relation 0
             (sysEmpty.recordRelation (.termRel
               (bagT.key ++
                 [Symbol.concreteType
                   (envBagT.getRelativeSubstitutionSchemaFromType tyInt []).1
                   (envBagT.getRelativeSubstitutionSchemaFromType tyInt []).2])
               (keyT ++ [Symbol.concreteConformance tyFoo [] "P",
                        Symbol.atom (.assocType "P" "A")]))).1 false],
           kind := .induced }] :=
  (tieOffRuleShape envBagT keyT .sameType tyFoo [] "P" confIntA "A" sysEmpty tyInt
    bagT rfl rfl rfl rfl).2.1

theorem hasPrefixStep_invert (p : RewritePath) :
    hasPrefixStep (RewritePath.invert p) = hasPrefixStep p := by
  unfold hasPrefixStep RewritePath.invert
  rw [List.any_reverse, List.any_map]
  congr 1
  funext s
  cases s <;> rfl

theorem addCalls_addRule_recordRelation (sys : RSys) (r : Relation) (l rr : Term)
    (p : Option RewritePath) :
    ((sys.recordRelation r).2.addRule l rr p).addCalls
      = sys.addCalls ++ [{ lhs := l, rhs := rr, path := p, kind := .induced }] := by
  simp [RSys.addRule, addCalls_recordRelation]

/-- C3 counterexample: with the conformance rule right hand side shorter
than the concrete rule right hand side and a compound symbol with non
empty substitutions, the single emitted compound rule carries no
substitution re-prefixing step, refuting the claim that re-prefixing
happens whenever the conformance right hand side is the shorter one. -/
theorem compoundPrefixCondition_counterexample :
    (sysMerge.getRule 1).rhs.length < (sysMerge.getRule 0).rhs.length ∧
    ccSymFooPU.getSubstitutions ≠ [] ∧
    ((recordConcreteConformanceRule 0 1 .sameType ccSymFooPU sysMerge).addCalls.map
      (fun c => c.path.map hasPrefixStep)) = [some false] := by
  refine ⟨by decide, by decide, rfl⟩

/-- C3 (amended): rule merging produces exactly one compound rule whose
left hand side is the longer of the two right hand sides followed by the
concrete conformance symbol and whose right hand side is that longer term;
the substitution terms are re-prefixed (a prefix substitution step appears
in the derivation) exactly when the concrete rule right hand side is
shorter than the conformance rule right hand side and the compound symbol
has a non empty substitution list. -/
theorem compoundConformanceRule (cid fid : Nat) (rk : ReqKind) (ccSym : Symbol)
    (sys : RSys) :
    ∃ p : RewritePath,
      (recordConcreteConformanceRule cid fid rk ccSym sys).addCalls
        = sys.addCalls ++
          [{ lhs := (if (sys.getRule cid).rhs.length > (sys.getRule fid).rhs.length
                     then (sys.getRule cid).rhs else (sys.getRule fid).rhs) ++ [ccSym],
             rhs := if (sys.getRule cid).rhs.length > (sys.getRule fid).rhs.length
                     then (sys.getRule cid).rhs else (sys.getRule fid).rhs,
             path := some p,
             kind := .induced }] ∧
      (hasPrefixStep p = true ↔
        ((sys.getRule cid).rhs.length < (sys.getRule fid).rhs.length ∧
          ccSym.getSubstitutions ≠ [])) := by
  unfold recordConcreteConformanceRule
  dsimp only
  split
  case isTrue h =>
    have hno : ¬ ((sys.getRule cid).rhs.length - (sys.getRule cid).rhs.length > 0 ∧
        ccSym.getSubstitutions ≠ []) := by
      rintro ⟨c1, -⟩; omega
    rw [if_neg hno, if_neg hno]
    refine ⟨_, addCalls_addRule_recordRelation .., ?_⟩
    rw [hasPrefixStep_invert]
    refine iff_of_false (fun hcontra => Bool.false_ne_true hcontra) ?_
    rintro ⟨hlt, -⟩
    omega
  case isFalse h =>
    by_cases hcond : ((sys.getRule fid).rhs.length - (sys.getRule cid).rhs.length > 0 ∧
        ccSym.getSubstitutions ≠ [])
    · rw [if_pos hcond, if_pos hcond]
      refine ⟨_, addCalls_addRule_recordRelation .., ?_⟩
      rw [hasPrefixStep_invert]
      exact iff_of_true rfl ⟨by omega, hcond.2⟩
    · rw [if_neg hcond, if_neg hcond]
      refine ⟨_, addCalls_addRule_recordRelation .., ?_⟩
      rw [hasPrefixStep_invert]
      refine iff_of_false (fun hcontra => Bool.false_ne_true hcontra) ?_
      rintro ⟨hlt, hsub⟩
      exact hcond ⟨by omega, hsub⟩

theorem pathNonempty_computeConstraintTerm (env : Env) (key : Term) (rk : ReqKind)
    (ct w : Ty) (subj : Term) (subs : List ATerm) (sys : RSys) :
    (computeConstraintTermForTypeWitness env key rk ct w subj subs [] sys).2.1 ≠ [] := by
  unfold computeConstraintTermForTypeWitness
  split
  · simp
  · split
    · cases hF : findReusablePrefixBag env key w (List.length key) with
      | some props => simp [hF]
      | none =>
          simp only [hF]
          split <;> simp
    · dsimp only
      split <;> simp

theorem addCalls_addRule_of_addCalls_eq {x sys : RSys} (h : x.addCalls = sys.addCalls)
    (l r : Term) (p : Option RewritePath) :
    (x.addRule l r p).addCalls
      = sys.addCalls ++ [{ lhs := l, rhs := r, path := p, kind := .induced }] := by
  simp [RSys.addRule, h]

theorem inducedTypeWitnessRuleHasPath (env : Env) (key : Term) (rk : ReqKind)
    (ccSym : Symbol) (conf : Conformance) (a : String) (sys : RSys) :
    ∃ c : AddCall, ∃ p : RewritePath,
      (concretizeTypeWitnessInConformance env key rk ccSym conf a sys).addCalls
        = sys.addCalls ++ [c] ∧ c.path = some p ∧ p ≠ [] := by
  have hne := pathNonempty_computeConstraintTerm env key rk
    ((ccSym.getConcreteType?).getD default)
    (resolvedTypeWitness conf ((ccSym.getConcreteType?).getD default) a)
    (key ++ [ccSym, Symbol.atom (.assocType ((ccSym.getProtocol?).getD "") a)])
    ccSym.getSubstitutions sys
  unfold concretizeTypeWitnessInConformance
  dsimp only
  split
  case isTrue hEmpty => exact absurd (List.isEmpty_iff.mp hEmpty) hne
  case isFalse hEmpty =>
    exact ⟨_, _, addCalls_addRule_of_addCalls_eq
      (addCalls_computeConstraintTerm ..) _ _ _, rfl, hne⟩

theorem compoundRuleHasPath (cid fid : Nat) (rk : ReqKind) (ccSym : Symbol)
    (sys : RSys) :
    ∃ c : AddCall, ∃ p : RewritePath,
      (recordConcreteConformanceRule cid fid rk ccSym sys).addCalls
        = sys.addCalls ++ [c] ∧ c.path = some p ∧ p ≠ [] := by
  unfold recordConcreteConformanceRule
  dsimp only
  refine ⟨_, _, addCalls_addRule_recordRelation .., rfl, ?_⟩
  simp [RewritePath.invert]

theorem conditionalRequirementRuleHasNoPath (env : Env) (subs : List ATerm)
    (sys : RSys) (req : CondReq) :
    (conditionalRequirementStep env subs sys req).addCalls.getLast?
      = some { lhs := (env.getRuleForRequirement req subs).1,
               rhs := (env.getRuleForRequirement req subs).2,
               path := none, kind := .induced } := by
  unfold conditionalRequirementStep
  dsimp only
  split
  · rw [RSys.addRule]
    exact List.getLast?_concat ..
  · rw [RSys.addRule]
    exact List.getLast?_concat ..

/-- C4 counterexample: translating a conditional requirement adds a rule
to the store with no derivation path at all. -/
theorem conditionalRuleWithoutPath_counterexample :
    (inferConditionalRequirements envCond confCond [] sysEmpty).addCalls
      = [{ lhs := [Symbol.atom (.genericParam 1), Symbol.atom (.protoSym "Q")],
           rhs := [Symbol.atom (.genericParam 1)], path := none,
           kind := .induced }] := rfl

/-- C4 (amended): every rule added by the type witness synthesizer and by
rule merging carries a non empty derivation path, but the rules added
while translating conditional requirements carry no derivation path. -/
theorem rulesCarryDerivations :
    (∀ (env : Env) (key : Term) (rk : ReqKind) (ccSym : Symbol)
        (conf : Conformance) (a : String) (sys : RSys),
      ∃ c : AddCall, ∃ p : RewritePath,
        (concretizeTypeWitnessInConformance env key rk ccSym conf a sys).addCalls
          = sys.addCalls ++ [c] ∧ c.path = some p ∧ p ≠ []) ∧
    (∀ (cid fid : Nat) (rk : ReqKind) (ccSym : Symbol) (sys : RSys),
      ∃ c : AddCall, ∃ p : RewritePath,
        (recordConcreteConformanceRule cid fid rk ccSym sys).addCalls
          = sys.addCalls ++ [c] ∧ c.path = some p ∧ p ≠ []) ∧
    (∀ (env : Env) (subs : List ATerm) (sys : RSys) (req : CondReq),
      (conditionalRequirementStep env subs sys req).addCalls.getLast?
        = some { lhs := (env.getRuleForRequirement req subs).1,
                 rhs := (env.getRuleForRequirement req subs).2,
                 path := none, kind := .induced }) :=
  ⟨inducedTypeWitnessRuleHasPath, compoundRuleHasPath,
   conditionalRequirementRuleHasNoPath⟩

theorem getConcreteType_concreteConformance (schema : Ty) (subs : List ATerm)
    (proto : String) :
    (Symbol.concreteConformance schema subs proto).getConcreteType? = some schema := rfl

theorem getSubstitutions_concreteConformance (schema : Ty) (subs : List ATerm)
    (proto : String) :
    (Symbol.concreteConformance schema subs proto).getSubstitutions = subs := rfl

theorem getProtocol_concreteConformance (schema : Ty) (subs : List ATerm)
    (proto : String) :
    (Symbol.concreteConformance schema subs proto).getProtocol? = some proto := rfl

theorem getD_penult (l : List Symbol) (a b : Symbol) :
    List.getD (l ++ [a, b]) ((l ++ [a, b]).length - 2) default = a := by
  rw [List.getD_eq_getElem?_getD]
  have hlen : (l ++ [a, b]).length = l.length + 2 := by simp
  rw [hlen, Nat.add_sub_cancel, List.getElem?_append_right (Nat.le_refl _)]
  simp

theorem getD_last_pair (l : List Symbol) (a b : Symbol) :
    List.getD (l ++ [a, b]) ((l ++ [a, b]).length - 1) default = b := by
  rw [List.getD_eq_getElem?_getD]
  have hlen : (l ++ [a, b]).length = l.length + 2 := by simp
  have hidx : l.length + 2 - 1 = l.length + 1 := by omega
  rw [hlen, hidx, List.getElem?_append_right (Nat.le_add_right ..)]
  simp

/-- C7: when the requirement kind is SameType, the witness is not a type
parameter, no prefix tie off applies, and the simplified witness symbol
has exactly the schema and substitutions of the parent concrete type, the
synthesizer emits the single self referential rule from the key extended
with the concrete conformance symbol to the subject, whose derivation is
an inverse relation step, the simplification path and a forward relation
step, and whose two sides have lengths one and two beyond the key. -/
theorem selfReferentialWitnessRule
    (env : Env) (key : Term) (schema : Ty) (subs : List ATerm)
    (proto : String) (conf : Conformance) (assocName : String) (sys : RSys) (w : Ty)
    (hw : conf.typeWitness assocName = some w)
    (hwp : w.isTypeParameter = false)
    (htie : (if !w.hasTypeParameter then findReusablePrefixBag env key w key.length
             else none) = none)
    (hsame1 : (simplifySymbol env key (Symbol.concreteType
        (env.getRelativeSubstitutionSchemaFromType w subs).1
        (env.getRelativeSubstitutionSchemaFromType w subs).2)).getConcreteType?
          = some schema)
    (hsame2 : (simplifySymbol env key (Symbol.concreteType
        (env.getRelativeSubstitutionSchemaFromType w subs).1
        (env.getRelativeSubstitutionSchemaFromType w subs).2)).getSubstitutions
          = subs) :
    ∃ sameID concID : Nat,
      (concretizeTypeWitnessInConformance env key .sameType
          (Symbol.concreteConformance schema subs proto) conf assocName sys).addCalls
        = sys.addCalls ++
          [{ lhs := key ++ [Symbol.concreteConformance schema subs proto],
             rhs := key ++ [Symbol.concreteConformance schema subs proto,
                            Symbol.atom (.assocType proto assocName)],
             path := some ([RewriteStep.relation key.length sameID true]
               ++ simplifySymbolPath env key (Symbol.concreteType
                    (env.getRelativeSubstitutionSchemaFromType w subs).1
                    (env.getRelativeSubstitutionSchemaFromType w subs).2)
               ++ [RewriteStep.relation key.length concID false]),
             kind := .induced }] ∧
      (key ++ [Symbol.concreteConformance schema subs proto]).length
        = key.length + 1 ∧
      (key ++ [Symbol.concreteConformance schema subs proto,
               Symbol.atom (.assocType proto assocName)]).length
        = key.length + 2 := by
  unfold concretizeTypeWitnessInConformance computeConstraintTermForTypeWitness
  dsimp only
  simp only [resolvedTypeWitness, hw, getConcreteType_concreteConformance,
    getSubstitutions_concreteConformance, getProtocol_concreteConformance,
    Option.getD_some]
  rw [if_neg (by simp [hwp] : ¬ w.isTypeParameter = true)]
  simp only [htie, getD_penult, getD_last_pair]
  simp only [hsame1, hsame2, eq_self_iff_true, and_true, true_and, if_true]
  split
  case isTrue hEmpty =>
      exfalso
      have := List.isEmpty_iff.mp hEmpty
      simp at this
  case isFalse hEmpty =>
      exact ⟨_, _, addCalls_addRule_of_addCalls_eq
        (by simp [addCalls_recordRelation]) _ _ _, by simp, by simp⟩

/-- Closed instance of C7: the witness of the member type A on the parent
concrete type is the parent concrete type itself, and the single
self referential rule is emitted. -/
theorem selfReferentialWitnessRule_witness :
    ∃ sameID concID : Nat,
      (concretizeTypeWitnessInConformance noneEnv keyT .sameType
          (Symbol.concreteConformance tyFoo [] "P") confFooSelf "A" sysEmpty).addCalls
        = sysEmpty.addCalls ++
          [{ lhs := keyT ++ [Symbol.concreteConformance tyFoo [] "P"],
             rhs := keyT ++ [Symbol.concreteConformance tyFoo [] "P",
                            Symbol.atom (.assocType "P" "A")],
             path := some ([RewriteStep.relation keyT.length sameID true]
               ++ simplifySymbolPath noneEnv keyT (Symbol.concreteType
                    (noneEnv.getRelativeSubstitutionSchemaFromType tyFoo []).1
                    (noneEnv.getRelativeSubstitutionSchemaFromType tyFoo []).2)
               ++ [RewriteStep.relation keyT.length concID false]),
             kind := .induced }] ∧
      (keyT ++ [Symbol.concreteConformance tyFoo [] "P"]).length = keyT.length + 1 ∧
      (keyT ++ [Symbol.concreteConformance tyFoo [] "P",
               Symbol.atom (.assocType "P" "A")]).length = keyT.length + 2 :=
  selfReferentialWitnessRule noneEnv keyT tyFoo [] "P" confFooSelf "A" sysEmpty tyFoo
    rfl rfl rfl rfl rfl

theorem addCalls_permanentRuleFold (l : List (Term × Term)) (sys : RSys) :
    ((l.foldl (fun s p => s.addPermanentRule p.1 p.2) sys).addCalls)
      = sys.addCalls ++ l.map (fun r =>
          { lhs := r.1, rhs := r.2, path := none, kind := AddKind.permanent }) := by
  induction l generalizing sys with
  | nil => simp
  | cons a rest ih =>
      rw [List.foldl_cons, ih]
      simp [RSys.addPermanentRule, List.append_assoc]

theorem addCalls_explicitRuleFold (l : List (Term × Term)) (sys : RSys) :
    ((l.foldl (fun s p => s.addExplicitRule p.1 p.2) sys).addCalls)
      = sys.addCalls ++ l.map (fun r =>
          { lhs := r.1, rhs := r.2, path := none, kind := AddKind.explicitRule }) := by
  induction l generalizing sys with
  | nil => simp
  | cons a rest ih =>
      rw [List.foldl_cons, ih]
      simp [RSys.addExplicitRule, List.append_assoc]

theorem knownProtocols_permanentRuleFold (l : List (Term × Term)) (sys : RSys) :
    ((l.foldl (fun s p => s.addPermanentRule p.1 p.2) sys).knownProtocols)
      = sys.knownProtocols := by
  induction l generalizing sys with
  | nil => simp
  | cons a rest ih =>
      rw [List.foldl_cons, ih]
      simp [RSys.addPermanentRule]

theorem knownProtocols_explicitRuleFold (l : List (Term × Term)) (sys : RSys) :
    ((l.foldl (fun s p => s.addExplicitRule p.1 p.2) sys).knownProtocols)
      = sys.knownProtocols := by
  induction l generalizing sys with
  | nil => simp
  | cons a rest ih =>
      rw [List.foldl_cons, ih]
      simp [RSys.addExplicitRule]

/-- C8: the conditional requirement inferencer runs exactly for keys that
are not rooted in an interface requirement signature; it is a no op when
the implementation has no conditional requirements; and a desugared
conformance requirement whose interface is unknown first registers that
interface (its permanent and explicit rules are added, and the interface
becomes known) before the translated requirement rule is added. -/
theorem conditionalRequirementInference
    (env : Env) (key : Term) (rk : ReqKind) (cid : Nat) (ct : Ty)
    (subs : List ATerm) (st : St) (proto : String) (fid : Nat)
    (conformance : Conformance) (p0 : String)
    (hcache : lookupConcreteConformance st.concreteConformances (cid, fid) = none)
    (hconf : env.lookupConformance ct proto = some conformance) :
    (Term.getRootProtocol key = some p0 →
      concretizeOneConformance env key rk cid ct subs st (proto, fid)
        = concretizeValidConformance env key rk cid fid ct subs proto
            conformance st) ∧
    (Term.getRootProtocol key = none →
      concretizeOneConformance env key rk cid ct subs st (proto, fid)
        = { (concretizeValidConformance env key rk cid fid ct subs proto
              conformance st) with
            sys := inferConditionalRequirements env conformance subs
              (concretizeValidConformance env key rk cid fid ct subs proto
                conformance st).sys }) ∧
    (∀ (conf2 : Conformance) (sys : RSys), conf2.conditionalRequirements = [] →
      inferConditionalRequirements env conf2 subs sys = sys) ∧
    (∀ (sys : RSys) (req : CondReq), req.kind = .conformance →
      sys.knownProtocols.contains req.proto = false →
      (conditionalRequirementStep env subs sys req).addCalls
        = sys.addCalls
          ++ ((env.protocolRules req.proto).1.map
              (fun r => { lhs := r.1, rhs := r.2, path := none,
                          kind := AddKind.permanent }))
          ++ ((env.protocolRules req.proto).2.map
              (fun r => { lhs := r.1, rhs := r.2, path := none,
                          kind := AddKind.explicitRule }))
          ++ [{ lhs := (env.getRuleForRequirement req subs).1,
                rhs := (env.getRuleForRequirement req subs).2, path := none,
                kind := AddKind.induced }] ∧
      req.proto ∈ (conditionalRequirementStep env subs sys req).knownProtocols) := by
  refine ⟨?_, ?_, ?_, ?_⟩
  · intro hroot
    unfold concretizeOneConformance
    simp [hcache, hconf, hroot]
  · intro hroot
    unfold concretizeOneConformance
    simp [hcache, hconf, hroot]
  · intro conf2 sys h
    unfold inferConditionalRequirements
    simp [h]
  · intro sys req hk hu
    have hcond : req.kind = CReqKind.conformance ∧
        (!sys.knownProtocols.contains req.proto) = true := ⟨hk, by rw [hu]; rfl⟩
    unfold conditionalRequirementStep
    rw [if_pos hcond]
    constructor
    · simp [RSys.addRule, addCalls_explicitRuleFold, addCalls_permanentRuleFold,
        List.append_assoc]
    · simp [RSys.addRule, knownProtocols_explicitRuleFold,
        knownProtocols_permanentRuleFold]

/-- Closed instance of C8: a key rooted in a protocol skips the
conditional requirement inferencer, an implementation with no conditional
requirements is a no op for the inferencer, and the conditional
requirement of the fixture registers the unknown interface Q before its
rule is added. -/
theorem conditionalRequirementInference_witness :
    (concretizeOneConformance envConfP keyZ .sameType 0 tyFoo [] stEmptySt ("P", 1)
      = concretizeValidConformance envConfP keyZ .sameType 0 1 tyFoo [] "P" confCond
          stEmptySt) ∧
    inferConditionalRequirements envConfP confNoWitness [] sysEmpty = sysEmpty ∧
    "Q" ∈ (conditionalRequirementStep envConfP [] sysEmpty reqUQ).knownProtocols :=
  ⟨(conditionalRequirementInference envConfP keyZ .sameType 0 tyFoo [] stEmptySt "P" 1
      confCond "Z" rfl rfl).1 rfl,
   (conditionalRequirementInference envConfP keyZ .sameType 0 tyFoo [] stEmptySt "P" 1
      confCond "Z" rfl rfl).2.2.1 confNoWitness sysEmpty rfl,
   ((conditionalRequirementInference envConfP keyZ .sameType 0 tyFoo [] stEmptySt "P" 1
      confCond "Z" rfl rfl).2.2.2 sysEmpty reqUQ rfl rfl).2⟩

theorem lookupConcreteConformance_append_of_some
    {cache : List ((Nat × Nat) × Conformance)} {pr : Nat × Nat} {v : Conformance}
    (ext : List ((Nat × Nat) × Conformance))
    (h : lookupConcreteConformance cache pr = some v) :
    lookupConcreteConformance (cache ++ ext) pr = some v := by
  unfold lookupConcreteConformance at h ⊢
  cases hf : cache.find? (fun e => e.1 == pr) with
  | none => rw [hf] at h; cases h
  | some e =>
      rw [hf] at h
      rw [List.find?_append, hf]
      simpa using h

theorem lookupConcreteConformance_append_self
    {cache : List ((Nat × Nat) × Conformance)} {pr : Nat × Nat}
    (v : Conformance)
    (h : lookupConcreteConformance cache pr = none) :
    lookupConcreteConformance (cache ++ [(pr, v)]) pr = some v := by
  unfold lookupConcreteConformance at h ⊢
  cases hf : cache.find? (fun e => e.1 == pr) with
  | some e => rw [hf] at h; cases h
  | none =>
      rw [List.find?_append, hf]
      simp

theorem concretizeOneConformance_cacheHit (env : Env) (key : Term) (rk : ReqKind)
    (cid : Nat) (ct : Ty) (subs : List ATerm) (st : St) (proto : String) (fid : Nat)
    (conf : Conformance)
    (h : lookupConcreteConformance st.concreteConformances (cid, fid) = some conf) :
    concretizeOneConformance env key rk cid ct subs st (proto, fid)
      = { st with conformances := st.conformances ++ [conf] } := by
  unfold concretizeOneConformance
  simp [h]

theorem concretizeOneConformance_noConformance (env : Env) (key : Term) (rk : ReqKind)
    (cid : Nat) (ct : Ty) (subs : List ATerm) (st : St) (proto : String) (fid : Nat)
    (hcache : lookupConcreteConformance st.concreteConformances (cid, fid) = none)
    (hconf : env.lookupConformance ct proto = none) :
    ((concretizeOneConformance env key rk cid ct subs st
        (proto, fid)).concreteConformances = st.concreteConformances) ∧
    ((concretizeOneConformance env key rk cid ct subs st (proto, fid)).sys.addCalls
      = st.sys.addCalls) ∧
    ((concretizeOneConformance env key rk cid ct subs st
        (proto, fid)).insertionAssertFailed = st.insertionAssertFailed) := by
  unfold concretizeOneConformance
  simp only [hcache, hconf]
  split
  · split
    · split
      · exact ⟨rfl, rfl, rfl⟩
      · exact ⟨rfl, rfl, rfl⟩
    · split
      · exact ⟨rfl, rfl, rfl⟩
      · exact ⟨rfl, rfl, rfl⟩
  · exact ⟨rfl, rfl, rfl⟩

theorem cache_flag_concretizeValidConformance (env : Env) (key : Term)
    (rk : ReqKind) (cid fid : Nat) (ct : Ty) (subs : List ATerm) (proto : String)
    (conf : Conformance) (st : St)
    (hcache : lookupConcreteConformance st.concreteConformances (cid, fid) = none) :
    ((concretizeValidConformance env key rk cid fid ct subs proto
        conf st).concreteConformances
      = st.concreteConformances ++ [((cid, fid), conf)]) ∧
    ((concretizeValidConformance env key rk cid fid ct subs proto
        conf st).insertionAssertFailed = st.insertionAssertFailed) := by
  unfold concretizeValidConformance
  by_cases hA : conf.isAbstract = true
  · rw [if_pos hA]
    simp only [hcache, Option.isNone_none, eq_self_iff_true, if_true]
    exact ⟨trivial, trivial⟩
  · rw [if_neg hA]
    simp only [hcache, Option.isNone_none, eq_self_iff_true, if_true]
    exact ⟨trivial, trivial⟩

theorem concretizeOneConformance_success (env : Env) (key : Term) (rk : ReqKind)
    (cid : Nat) (ct : Ty) (subs : List ATerm) (st : St) (proto : String) (fid : Nat)
    (conf : Conformance)
    (hcache : lookupConcreteConformance st.concreteConformances (cid, fid) = none)
    (hconf : env.lookupConformance ct proto = some conf) :
    ((concretizeOneConformance env key rk cid ct subs st
        (proto, fid)).concreteConformances
      = st.concreteConformances ++ [((cid, fid), conf)]) ∧
    ((concretizeOneConformance env key rk cid ct subs st
        (proto, fid)).insertionAssertFailed = st.insertionAssertFailed) := by
  unfold concretizeOneConformance
  simp only [hcache, hconf]
  split
  · exact ⟨(cache_flag_concretizeValidConformance env key rk cid fid ct subs proto
        conf st hcache).1,
      (cache_flag_concretizeValidConformance env key rk cid fid ct subs proto
        conf st hcache).2⟩
  · exact ⟨(cache_flag_concretizeValidConformance env key rk cid fid ct subs proto
        conf st hcache).1,
      (cache_flag_concretizeValidConformance env key rk cid fid ct subs proto
        conf st hcache).2⟩

theorem cache_extends_concretizeOneConformance (env : Env) (key : Term)
    (rk : ReqKind) (cid : Nat) (ct : Ty) (subs : List ATerm) (st : St)
    (pc : String × Nat) :
    ∃ ext, (concretizeOneConformance env key rk cid ct subs st pc).concreteConformances
      = st.concreteConformances ++ ext := by
  obtain ⟨p, f⟩ := pc
  rcases hcache : lookupConcreteConformance st.concreteConformances (cid, f)
      with _ | conf
  · rcases hconf : env.lookupConformance ct p with _ | conf
    · refine ⟨[], ?_⟩
      rw [(concretizeOneConformance_noConformance env key rk cid ct subs st
        p f hcache hconf).1]
      simp
    · exact ⟨[((cid, f), conf)],
        (concretizeOneConformance_success env key rk cid ct subs st p f conf
          hcache hconf).1⟩
  · refine ⟨[], ?_⟩
    rw [concretizeOneConformance_cacheHit env key rk cid ct subs st p f conf hcache]
    simp

theorem flag_concretizeOneConformance (env : Env) (key : Term) (rk : ReqKind)
    (cid : Nat) (ct : Ty) (subs : List ATerm) (st : St) (pc : String × Nat)
    (h : st.insertionAssertFailed = false) :
    (concretizeOneConformance env key rk cid ct subs st pc).insertionAssertFailed
      = false := by
  obtain ⟨p, f⟩ := pc
  rcases hcache : lookupConcreteConformance st.concreteConformances (cid, f)
      with _ | conf
  · rcases hconf : env.lookupConformance ct p with _ | conf
    · rw [(concretizeOneConformance_noConformance env key rk cid ct subs st
        p f hcache hconf).2.2]
      exact h
    · rw [(concretizeOneConformance_success env key rk cid ct subs st p f conf
        hcache hconf).2]
      exact h
  · rw [concretizeOneConformance_cacheHit env key rk cid ct subs st p f conf hcache]
    exact h

theorem resolved_step_noCalls (env : Env) (key : Term) (rk : ReqKind) (cid : Nat)
    (ct : Ty) (subs : List ATerm) (st : St) (pc : String × Nat)
    (h : stepResolved env ct cid st.concreteConformances pc) :
    ((concretizeOneConformance env key rk cid ct subs st pc).sys.addCalls
      = st.sys.addCalls) ∧
    ((concretizeOneConformance env key rk cid ct subs st pc).concreteConformances
      = st.concreteConformances) := by
  obtain ⟨p, f⟩ := pc
  rcases hcache : lookupConcreteConformance st.concreteConformances (cid, f)
      with _ | conf
  · rcases h with hnone | ⟨v, hv⟩
    · exact ⟨(concretizeOneConformance_noConformance env key rk cid ct subs st
          p f hcache hnone).2.1,
        (concretizeOneConformance_noConformance env key rk cid ct subs st
          p f hcache hnone).1⟩
    · rw [hcache] at hv; cases hv
  · rw [concretizeOneConformance_cacheHit env key rk cid ct subs st p f conf hcache]
    exact ⟨rfl, rfl⟩

theorem cache_extends_fold (env : Env) (key : Term) (rk : ReqKind) (cid : Nat)
    (ct : Ty) (subs : List ATerm) :
    ∀ (pcs : List (String × Nat)) (st : St),
      ∃ ext, (pcs.foldl (concretizeOneConformance env key rk cid ct subs)
          st).concreteConformances
        = st.concreteConformances ++ ext := by
  intro pcs
  induction pcs with
  | nil => exact fun st => ⟨[], by simp⟩
  | cons pc rest ih =>
      intro st
      obtain ⟨e1, h1⟩ := cache_extends_concretizeOneConformance env key rk cid ct
        subs st pc
      obtain ⟨e2, h2⟩ := ih (concretizeOneConformance env key rk cid ct subs st pc)
      exact ⟨e1 ++ e2, by rw [List.foldl_cons, h2, h1, List.append_assoc]⟩

theorem stepResolved_mono {env : Env} {ct : Ty} {cid : Nat}
    {cache ext : List ((Nat × Nat) × Conformance)} {pc : String × Nat}
    (h : stepResolved env ct cid cache pc) :
    stepResolved env ct cid (cache ++ ext) pc := by
  rcases h with h | ⟨v, hv⟩
  · exact Or.inl h
  · exact Or.inr ⟨v, lookupConcreteConformance_append_of_some ext hv⟩

theorem fold_establishes_resolved (env : Env) (key : Term) (rk : ReqKind)
    (cid : Nat) (ct : Ty) (subs : List ATerm) :
    ∀ (pcs : List (String × Nat)) (st : St) (pc : String × Nat), pc ∈ pcs →
      stepResolved env ct cid
        ((pcs.foldl (concretizeOneConformance env key rk cid ct subs)
          st).concreteConformances) pc := by
  intro pcs
  induction pcs with
  | nil => intro st pc h; cases h
  | cons pc0 rest ih =>
      intro st pc hmem
      rw [List.foldl_cons]
      rcases List.mem_cons.mp hmem with he | hrest
      · subst he
        obtain ⟨ext, hext⟩ := cache_extends_fold env key rk cid ct subs rest
          (concretizeOneConformance env key rk cid ct subs st pc)
        rw [hext]
        apply stepResolved_mono
        obtain ⟨p, f⟩ := pc
        rcases hcache : lookupConcreteConformance st.concreteConformances (cid, f)
            with _ | conf
        · rcases hconf : env.lookupConformance ct p with _ | conf
          · exact Or.inl hconf
          · refine Or.inr ⟨conf, ?_⟩
            rw [(concretizeOneConformance_success env key rk cid ct subs st
              p f conf hcache hconf).1]
            exact lookupConcreteConformance_append_self conf hcache
        · refine Or.inr ⟨conf, ?_⟩
          rw [concretizeOneConformance_cacheHit env key rk cid ct subs st
            p f conf hcache]
          exact hcache
      · exact ih (concretizeOneConformance env key rk cid ct subs st pc0) pc hrest

theorem fold_resolved_noCalls (env : Env) (key : Term) (rk : ReqKind) (cid : Nat)
    (ct : Ty) (subs : List ATerm) :
    ∀ (pcs : List (String × Nat)) (st : St),
      (∀ pc ∈ pcs, stepResolved env ct cid st.concreteConformances pc) →
      ((pcs.foldl (concretizeOneConformance env key rk cid ct subs) st).sys.addCalls
        = st.sys.addCalls) := by
  intro pcs
  induction pcs with
  | nil => intro st h; rfl
  | cons pc0 rest ih =>
      intro st h
      rw [List.foldl_cons]
      have h0 := resolved_step_noCalls env key rk cid ct subs st pc0
        (h pc0 (List.mem_cons_self ..))
      have hrest : ∀ pc ∈ rest, stepResolved env ct cid
          (concretizeOneConformance env key rk cid ct subs st
            pc0).concreteConformances pc := by
        intro pc hpc
        rw [h0.2]
        exact h pc (List.mem_cons_of_mem _ hpc)
      rw [ih _ hrest, h0.1]

theorem fold_flag (env : Env) (key : Term) (rk : ReqKind) (cid : Nat) (ct : Ty)
    (subs : List ATerm) :
    ∀ (pcs : List (String × Nat)) (st : St), st.insertionAssertFailed = false →
      (pcs.foldl (concretizeOneConformance env key rk cid ct subs)
        st).insertionAssertFailed = false := by
  intro pcs
  induction pcs with
  | nil => intro st h; exact h
  | cons pc0 rest ih =>
      intro st h
      rw [List.foldl_cons]
      exact ih _ (flag_concretizeOneConformance env key rk cid ct subs st pc0 h)

/-- C5: across a whole invocation of the per parent concretizer the
insertion assertion on the per key cache never fires; on a cache hit the
cached implementation handle is recorded into the resolved conformances
list and nothing else changes (no rules are synthesized); and re-running
the whole invocation on its own result synthesizes no further rules. -/
theorem atMostOnceDerivation
    (env : Env) (key : Term) (rk : ReqKind) (cid : Nat) (ct : Ty)
    (subs : List ATerm) (conformsToRules : List Nat) (conformsTo : List String)
    (st : St)
    (hflag : st.insertionAssertFailed = false) :
    ((concretizeNestedTypesFromConcreteParent env key rk cid ct subs
        conformsToRules conformsTo st).insertionAssertFailed = false) ∧
    (∀ (st2 : St) (proto : String) (fid : Nat) (conf : Conformance),
      lookupConcreteConformance st2.concreteConformances (cid, fid) = some conf →
      concretizeOneConformance env key rk cid ct subs st2 (proto, fid)
        = { st2 with conformances := st2.conformances ++ [conf] }) ∧
    ((concretizeNestedTypesFromConcreteParent env key rk cid ct subs
        conformsToRules conformsTo
        (concretizeNestedTypesFromConcreteParent env key rk cid ct subs
          conformsToRules conformsTo st)).sys.addCalls
      = (concretizeNestedTypesFromConcreteParent env key rk cid ct subs
          conformsToRules conformsTo st).sys.addCalls) := by
  refine ⟨?_, ?_, ?_⟩
  · unfold concretizeNestedTypesFromConcreteParent
    exact fold_flag env key rk cid ct subs _ st hflag
  · intro st2 proto fid conf h
    exact concretizeOneConformance_cacheHit env key rk cid ct subs st2
      proto fid conf h
  · unfold concretizeNestedTypesFromConcreteParent
    apply fold_resolved_noCalls
    intro pc hpc
    exact fold_establishes_resolved env key rk cid ct subs _ st pc hpc

/-- Closed instance of C5: with a pre-populated cache the step records the
cached handle and adds nothing, the assertion flag stays clear, and
re-running the invocation adds no rules. -/
theorem atMostOnceDerivation_witness :
    ((concretizeNestedTypesFromConcreteParent noneEnv keyT .sameType 0 tyFoo []
        [1] ["P"] stCached).insertionAssertFailed = false) ∧
    (concretizeOneConformance noneEnv keyT .sameType 0 tyFoo [] stCached ("P", 1)
      = { stCached with conformances := stCached.conformances ++ [confNoWitness] }) ∧
    ((concretizeNestedTypesFromConcreteParent noneEnv keyT .sameType 0 tyFoo []
        [1] ["P"]
        (concretizeNestedTypesFromConcreteParent noneEnv keyT .sameType 0 tyFoo []
          [1] ["P"] stCached)).sys.addCalls
      = (concretizeNestedTypesFromConcreteParent noneEnv keyT .sameType 0 tyFoo []
          [1] ["P"] stCached).sys.addCalls) :=
  ⟨(atMostOnceDerivation noneEnv keyT .sameType 0 tyFoo [] [1] ["P"] stCached rfl).1,
   (atMostOnceDerivation noneEnv keyT .sameType 0 tyFoo [] [1] ["P"] stCached
      rfl).2.1 stCached "P" 1 confNoWitness rfl,
   (atMostOnceDerivation noneEnv keyT .sameType 0 tyFoo [] [1] ["P"] stCached
      rfl).2.2⟩

end ConcreteTypeWitness
